import Mathlib

/-!
# Verification of the casita-assistant Zigbee gateway core

Shallow embedding of the deconz-protocol, zigbee-core and automation-engine
crates (Rust), with proofs of the specification's testable properties.

Bytes are modelled as `Nat`; 16-bit wrap-around arithmetic is explicit
(`% 65536`).  Fallible Rust functions become `Except`/`Option`; Rust code
that can panic (out-of-bounds indexing) is embedded into an error monad
with a distinguished panic outcome.
-/

namespace Casita

/-! ## SLIP codec (src/crates/deconz-protocol/src/slip.rs) -/

def SLIP_END : Nat := 0xC0

def SLIP_ESC : Nat := 0xDB

def SLIP_ESC_END : Nat := 0xDC

def SLIP_ESC_ESC : Nat := 0xDD

/-- One step of `SlipEncoder::encode`'s loop body: the bytes pushed for a
single input byte. -/
def slipEncodeByte (b : Nat) : List Nat :=
  if b = SLIP_END then [SLIP_ESC, SLIP_ESC_END]
  else if b = SLIP_ESC then [SLIP_ESC, SLIP_ESC_ESC]
  else [b]

/-- `SlipEncoder::encode`: prefix and suffix with END, escape END and ESC. -/
def slipEncode (data : List Nat) : List Nat :=
  SLIP_END :: data.flatMap slipEncodeByte ++ [SLIP_END]

/-- `SlipDecoder` state: current partial frame and the escape flag. -/
structure SlipDecoder where
  buffer : List Nat
  inEscape : Bool
deriving DecidableEq, Repr

/-- `SlipDecoder::new`. -/
def SlipDecoder.init : SlipDecoder := ⟨[], false⟩

/-- One iteration of `SlipDecoder::feed`'s loop: consume one byte, return the
new state and the frames emitted (zero or one). -/
def SlipDecoder.feedStep (d : SlipDecoder) (b : Nat) : SlipDecoder × List (List Nat) :=
  if d.inEscape then
    if b = SLIP_ESC_END then (⟨d.buffer ++ [SLIP_END], false⟩, [])
    else if b = SLIP_ESC_ESC then (⟨d.buffer ++ [SLIP_ESC], false⟩, [])
    else (⟨d.buffer ++ [SLIP_ESC, b], false⟩, [])
  else
    if b = SLIP_END then
      if d.buffer.isEmpty then (d, []) else (⟨[], d.inEscape⟩, [d.buffer])
    else if b = SLIP_ESC then (⟨d.buffer, true⟩, [])
    else (⟨d.buffer ++ [b], d.inEscape⟩, [])

/-- `SlipDecoder::feed`: run the loop over all input bytes, collecting the
complete frames in order. -/
def SlipDecoder.feed (d : SlipDecoder) : List Nat → SlipDecoder × List (List Nat)
  | [] => (d, [])
  | b :: rest =>
    let (d', fs) := d.feedStep b
    let (d'', fs') := d'.feed rest
    (d'', fs ++ fs')

/-- Feeding a fresh decoder, keeping only the emitted frames. -/
def slipDecode (data : List Nat) : List (List Nat) :=
  (SlipDecoder.init.feed data).2

/-! ## deCONZ frame codec (src/crates/deconz-protocol/src/frame.rs,
commands.rs) -/

/-- `CommandId` (commands.rs). -/
inductive CommandId where
  | ApsDataConfirm | DeviceState | ChangeNetworkState | ReadParameter
  | WriteParameter | Version | DeviceStateChanged | ApsDataRequest
  | ApsDataIndication | GreenPower | MacPoll | NeighborUpdate
  | MacBeaconIndication
deriving DecidableEq, Repr

/-- The `#[repr(u8)]` discriminant of each command. -/
def CommandId.toU8 : CommandId → Nat
  | .ApsDataConfirm => 0x04
  | .DeviceState => 0x07
  | .ChangeNetworkState => 0x08
  | .ReadParameter => 0x0A
  | .WriteParameter => 0x0B
  | .Version => 0x0D
  | .DeviceStateChanged => 0x0E
  | .ApsDataRequest => 0x12
  | .ApsDataIndication => 0x17
  | .GreenPower => 0x19
  | .MacPoll => 0x1C
  | .NeighborUpdate => 0x1D
  | .MacBeaconIndication => 0x1F

/-- `CommandId::from_u8`. -/
def CommandId.fromU8 (value : Nat) : Option CommandId :=
  if value = 0x04 then some .ApsDataConfirm
  else if value = 0x07 then some .DeviceState
  else if value = 0x08 then some .ChangeNetworkState
  else if value = 0x0A then some .ReadParameter
  else if value = 0x0B then some .WriteParameter
  else if value = 0x0D then some .Version
  else if value = 0x0E then some .DeviceStateChanged
  else if value = 0x12 then some .ApsDataRequest
  else if value = 0x17 then some .ApsDataIndication
  else if value = 0x19 then some .GreenPower
  else if value = 0x1C then some .MacPoll
  else if value = 0x1D then some .NeighborUpdate
  else if value = 0x1F then some .MacBeaconIndication
  else none

/-- `ProtocolError` (types.rs).  The Rust messages carry interpolated detail
strings; the constructors here keep only the structured data. -/
inductive ProtocolError where
  | InvalidFrame (detail : String)
  | CrcMismatch (expected actual : Nat)
  | FrameTooShort (length : Nat)
  | UnknownCommand (id : Nat)
  | SerialError
  | Timeout
  | NotConnected
  | DeviceError (status : Nat)
deriving DecidableEq, Repr

/-- `Frame::calculate_crc`: two's complement of the wrapping 16-bit sum. -/
def crc16 (data : List Nat) : Nat :=
  (65536 - data.sum % 65536) % 65536

/-- Little-endian bytes of a 16-bit value (`u16::to_le_bytes`). -/
def u16le (n : Nat) : List Nat := [n % 256, n / 256 % 256]

/-- `u16::from_le_bytes`. -/
def u16fromLe (lo hi : Nat) : Nat := lo + 256 * hi

/-- deCONZ protocol `Frame`. -/
structure Frame where
  command_id : CommandId
  sequence : Nat
  status : Nat
  payload : List Nat
deriving DecidableEq, Repr

/-- `Frame::new` (requests carry status 0). -/
def Frame.new (command_id : CommandId) (sequence : Nat) (payload : List Nat) : Frame :=
  ⟨command_id, sequence, 0, payload⟩

/-- `Frame::serialize`: header, payload, then the CRC over everything before
it.  The header's length field excludes the CRC.  (The Rust code panics if
`5 + payload.len()` exceeds `u16`; theorems below assume it fits.) -/
def Frame.serialize (f : Frame) : List Nat :=
  let frame_len := 5 + f.payload.length
  let body := f.command_id.toU8 :: f.sequence :: 0 :: u16le frame_len ++ f.payload
  body ++ u16le (crc16 body)

/-- `Frame::deserialize`. -/
def Frame.deserialize (data : List Nat) : Except ProtocolError Frame :=
  if data.length < 7 then .error (.FrameTooShort data.length)
  else
    let crcOffset := data.length - 2
    let receivedCrc := u16fromLe (data.getD crcOffset 0) (data.getD (crcOffset + 1) 0)
    let calculatedCrc := crc16 (data.take crcOffset)
    if receivedCrc ≠ calculatedCrc then
      .error (.CrcMismatch calculatedCrc receivedCrc)
    else
      match CommandId.fromU8 (data.getD 0 0) with
      | none => .error (.UnknownCommand (data.getD 0 0))
      | some commandId =>
        let frameLen := u16fromLe (data.getD 3 0) (data.getD 4 0)
        if frameLen + 2 ≠ data.length then
          .error (.InvalidFrame "Frame length mismatch")
        else
          .ok ⟨commandId, data.getD 1 0, data.getD 2 0, (data.drop 5).take (crcOffset - 5)⟩

/-- Flip bit `k` of a natural number (the claim's single-bit corruption). -/
def flipByte (b k : Nat) : Nat :=
  if b.testBit k then b - 2 ^ k else b + 2 ^ k

/-- Flip bit `k` of the byte at position `i` of a byte string. -/
def flipBit (l : List Nat) (i k : Nat) : List Nat :=
  l.set i (flipByte (l.getD i 0) k)

/-- `true` iff a deserialization result is a `CrcMismatch` or `InvalidFrame`
error. -/
def isCrcOrInvalid : Except ProtocolError Frame → Bool
  | .error (.CrcMismatch _ _) => true
  | .error (.InvalidFrame _) => true
  | _ => false

/-! ## APS data indication parser (src/crates/deconz-protocol/src/types.rs)

Rust indexing (`data[i]`, `copy_from_slice`) panics when out of bounds, so
the parser is embedded into `Except (RustOutcome ProtocolError)` where the
`panicked` outcome marks an out-of-bounds access. -/

/-- Outcome of fallible Rust code that may also panic. -/
inductive RustOutcome (ε : Type) where
  | panicked
  | error (e : ε)
deriving DecidableEq, Repr

/-- `data[i]`: the byte at `i`, or a panic when out of bounds. -/
def readAt (data : List Nat) (i : Nat) : Except (RustOutcome ProtocolError) Nat :=
  match data[i]? with
  | some b => .ok b
  | none => .error .panicked

/-- `&data[i..i+n]` + `copy_from_slice`: a slice, or a panic when the range
exceeds the buffer. -/
def readSlice (data : List Nat) (i n : Nat) : Except (RustOutcome ProtocolError) (List Nat) :=
  if i + n ≤ data.length then .ok ((data.drop i).take n) else .error .panicked

/-- `AddressMode` (types.rs). -/
inductive AddressMode where
  | Group | Nwk | Ieee | NwkAndIeee
deriving DecidableEq, Repr

/-- `AddressMode::try_from`. -/
def AddressMode.tryFromU8 (value : Nat) : Option AddressMode :=
  if value = 0x01 then some .Group
  else if value = 0x02 then some .Nwk
  else if value = 0x03 then some .Ieee
  else if value = 0x04 then some .NwkAndIeee
  else none

/-- `NetworkState` (types.rs). -/
inductive NetworkState where
  | Offline | Joining | Connected | Leaving
deriving DecidableEq, Repr

/-- `NetworkState::from_bits`: the two low bits (the `unreachable!` arm of
the Rust match cannot fire because of the `& 0x03` mask). -/
def NetworkState.fromBits (bits : Nat) : NetworkState :=
  if bits.land 0x03 = 0 then .Offline
  else if bits.land 0x03 = 1 then .Joining
  else if bits.land 0x03 = 2 then .Connected
  else .Leaving

/-- `DeviceState` flags (types.rs). -/
structure DeviceState where
  network_state : NetworkState
  aps_data_confirm : Bool
  aps_data_indication : Bool
  configuration_changed : Bool
  aps_request_free_slots : Bool
deriving DecidableEq, Repr

/-- `DeviceState::from_byte`. -/
def DeviceState.fromByte (byte : Nat) : DeviceState :=
  { network_state := NetworkState.fromBits (byte.land 0x03)
    aps_data_confirm := byte.land 0x04 != 0
    aps_data_indication := byte.land 0x08 != 0
    configuration_changed := byte.land 0x10 != 0
    aps_request_free_slots := byte.land 0x20 != 0 }

/-- Interpret a byte as Rust `i8` (the RSSI field). -/
def i8OfByte (b : Nat) : Int :=
  if b < 128 then (b : Int) else (b : Int) - 256

/-- `ApsDataIndication` (types.rs). -/
structure ApsDataIndication where
  device_state : DeviceState
  dest_addr_mode : AddressMode
  dest_addr : Nat
  dest_endpoint : Nat
  src_addr_mode : AddressMode
  src_short_addr : Nat
  src_ieee_addr : Option (List Nat)
  src_endpoint : Nat
  profile_id : Nat
  cluster_id : Nat
  asdu : List Nat
  lqi : Nat
  rssi : Int
deriving DecidableEq, Repr

/-- `ApsDataIndication::parse`, statement by statement.  Unchecked `data[idx]`
reads become `readAt` (panic on out-of-bounds); the explicit length checks of
the Rust code stay explicit. -/
def ApsDataIndication.parse (data : List Nat) :
    Except (RustOutcome ProtocolError) ApsDataIndication := do
  if data.length < 15 then
    throw (.error (.FrameTooShort data.length))
  else
    let _payloadLen ← readAt data 0
    let _payloadLenHi ← readAt data 1
    let dsByte ← readAt data 2
    let dmByte ← readAt data 3
    match AddressMode.tryFromU8 dmByte with
    | none => throw (.error (.InvalidFrame "Unknown dest addr mode"))
    | some destAddrMode => do
      let (destAddr, idx) ← (match destAddrMode with
        | .Nwk | .Group => do
            let lo ← readAt data 4
            let hi ← readAt data 5
            pure (u16fromLe lo hi, 6)
        | .Ieee => pure (0, 12)
        | .NwkAndIeee => do
            let lo ← readAt data 4
            let hi ← readAt data 5
            pure (u16fromLe lo hi, 14))
      let destEndpoint ← readAt data idx
      let smByte ← readAt data (idx + 1)
      match AddressMode.tryFromU8 smByte with
      | none => throw (.error (.InvalidFrame "Unknown src addr mode"))
      | some srcAddrMode => do
        let (srcShortAddr, srcIeeeAddr, idx2) ← (match srcAddrMode with
          | .Nwk | .Group => do
              let lo ← readAt data (idx + 2)
              let hi ← readAt data (idx + 3)
              pure ((u16fromLe lo hi, none, idx + 4) :
                Nat × Option (List Nat) × Nat)
          | .Ieee => do
              let ieee ← readSlice data (idx + 2) 8
              pure (0, some ieee, idx + 10)
          | .NwkAndIeee => do
              let lo ← readAt data (idx + 2)
              let hi ← readAt data (idx + 3)
              let ieee ← readSlice data (idx + 4) 8
              pure (u16fromLe lo hi, some ieee, idx + 12))
        let srcEndpoint ← readAt data idx2
        let profLo ← readAt data (idx2 + 1)
        let profHi ← readAt data (idx2 + 2)
        let clusLo ← readAt data (idx2 + 3)
        let clusHi ← readAt data (idx2 + 4)
        let asduLo ← readAt data (idx2 + 5)
        let asduHi ← readAt data (idx2 + 6)
        let asduLen := u16fromLe asduLo asduHi
        let asduStart := idx2 + 7
        if asduStart + asduLen > data.length then
          throw (.error (.FrameTooShort data.length))
        else
          let asdu := (data.drop asduStart).take asduLen
          let rest := asduStart + asduLen
          let lqi := if rest < data.length then data.getD rest 0 else 0
          let rssi := if rest + 1 < data.length then i8OfByte (data.getD (rest + 1) 0) else 0
          pure
            { device_state := DeviceState.fromByte dsByte
              dest_addr_mode := destAddrMode
              dest_addr := destAddr
              dest_endpoint := destEndpoint
              src_addr_mode := srcAddrMode
              src_short_addr := srcShortAddr
              src_ieee_addr := srcIeeeAddr
              src_endpoint := srcEndpoint
              profile_id := u16fromLe profLo profHi
              cluster_id := u16fromLe clusLo clusHi
              asdu := asdu
              lqi := lqi
              rssi := rssi }

/-- Number of destination-address bytes consumed per address mode. -/
def destWidth : AddressMode → Nat
  | .Group | .Nwk => 2
  | .Ieee => 8
  | .NwkAndIeee => 10

/-- `true` iff a parse outcome is an `InvalidFrame` error. -/
def parseIsInvalidFrame : Except (RustOutcome ProtocolError) ApsDataIndication → Bool
  | .error (.error (.InvalidFrame _)) => true
  | _ => false

/-! ## ZCL frames and APS requests (src/crates/deconz-protocol/src/types.rs) -/

/-- `profiles::HOME_AUTOMATION`. -/
def HOME_AUTOMATION : Nat := 0x0104

/-- `profiles::ZDO`. -/
def PROFILE_ZDO : Nat := 0x0000

/-- `clusters::ON_OFF`. -/
def ON_OFF : Nat := 0x0006

/-- `OnOffCommand` (types.rs). -/
inductive OnOffCommand where
  | Off | On | Toggle
deriving DecidableEq, Repr

/-- The `#[repr(u8)]` discriminant of each On/Off command. -/
def OnOffCommand.toU8 : OnOffCommand → Nat
  | .Off => 0x00
  | .On => 0x01
  | .Toggle => 0x02

/-- `ZclFrame` (types.rs). -/
structure ZclFrame where
  frame_control : Nat
  manufacturer_code : Option Nat
  transaction_seq : Nat
  command_id : Nat
  payload : List Nat
deriving DecidableEq, Repr

/-- `ZclFrame::parse`.  All of its indexing is guarded by length checks, so it
never panics. -/
def ZclFrame.parse (data : List Nat) : Except ProtocolError ZclFrame :=
  if data.length < 3 then .error (.FrameTooShort data.length)
  else
    let fc := data.getD 0 0
    if fc.land 0x04 ≠ 0 then
      if data.length < 3 then .error (.FrameTooShort data.length)
      else
        let code := u16fromLe (data.getD 1 0) (data.getD 2 0)
        if data.length < 5 then .error (.FrameTooShort data.length)
        else .ok ⟨fc, some code, data.getD 3 0, data.getD 4 0, data.drop 5⟩
    else
      if data.length < 3 then .error (.FrameTooShort data.length)
      else .ok ⟨fc, none, data.getD 1 0, data.getD 2 0, data.drop 3⟩

/-- `ZclFrame::is_cluster_specific`. -/
def ZclFrame.isClusterSpecific (z : ZclFrame) : Bool :=
  z.frame_control.land 0x03 == 0x01

/-- `ZclFrame::cluster_command`. -/
def ZclFrame.clusterCommand (transaction_seq command_id : Nat) : ZclFrame :=
  ⟨0x01, none, transaction_seq, command_id, []⟩

/-- `ZclFrame::on_off_command`. -/
def ZclFrame.onOffCommand (transaction_seq : Nat) (cmd : OnOffCommand) : ZclFrame :=
  ZclFrame.clusterCommand transaction_seq cmd.toU8

/-- `ZclFrame::serialize`. -/
def ZclFrame.serialize (z : ZclFrame) : List Nat :=
  [z.frame_control] ++
    (match z.manufacturer_code with
      | some m => u16le m
      | none => []) ++
    [z.transaction_seq, z.command_id] ++ z.payload

/-- `ApsDataRequest` (types.rs). -/
structure ApsDataRequest where
  request_id : Nat
  dest_addr_mode : AddressMode
  dest_short_addr : Nat
  dest_endpoint : Nat
  profile_id : Nat
  cluster_id : Nat
  src_endpoint : Nat
  asdu : List Nat
  tx_options : Nat
  radius : Nat
deriving DecidableEq, Repr

/-- `ApsDataRequest::new`: NWK-addressed Home-Automation request with APS ACK
requested. -/
def ApsDataRequest.new (request_id dest_short_addr dest_endpoint cluster_id : Nat)
    (asdu : List Nat) : ApsDataRequest :=
  { request_id := request_id
    dest_addr_mode := .Nwk
    dest_short_addr := dest_short_addr
    dest_endpoint := dest_endpoint
    profile_id := HOME_AUTOMATION
    cluster_id := cluster_id
    src_endpoint := 0x01
    asdu := asdu
    tx_options := 0x04
    radius := 0x00 }

/-! ## Device inventory and network manager
(src/crates/zigbee-core/src/device.rs, network.rs)

The `DashMap<[u8;8], ZigbeeDevice>` inventory is modelled as a list of
devices keyed by their IEEE address (unique keys); `get`/`get_mut` become
first-match lookup/update. -/

/-- `DeviceType` (device.rs). -/
inductive DeviceType where
  | Coordinator | Router | EndDevice
deriving DecidableEq, Repr

/-- `DeviceCategory` (device.rs). -/
inductive DeviceCategory where
  | Light | Outlet | Switch | Sensor | Lock | Thermostat | Fan | Blinds | Other
deriving DecidableEq, Repr

/-- `Endpoint` (device.rs). -/
structure Endpoint where
  id : Nat
  profile_id : Nat
  device_id : Nat
  in_clusters : List Nat
  out_clusters : List Nat
deriving DecidableEq, Repr

/-- `ZigbeeDevice` (device.rs).  `last_seen : Option<Instant>` becomes an
abstract `Option Nat` timestamp. -/
structure ZigbeeDevice where
  ieee_address : List Nat
  nwk_address : Nat
  device_type : DeviceType
  category : DeviceCategory
  manufacturer : Option String
  model : Option String
  friendly_name : Option String
  endpoints : List Endpoint
  last_seen : Option Nat
  lqi : Option Nat
  available : Bool
  state_on : Option Bool
deriving DecidableEq, Repr

/-- `NetworkError` (network.rs).  `DeviceNotFound` carries a formatted
address string in Rust, elided here. -/
inductive NetworkError where
  | Protocol (e : ProtocolError)
  | DeviceNotFound
  | NotConnected
deriving DecidableEq, Repr

/-- `NetworkEvent` (network.rs). -/
inductive NetworkEvent where
  | DeviceJoined (device : ZigbeeDevice)
  | DeviceLeft (ieee_address : List Nat)
  | DeviceUpdated (ieee_address : List Nat)
  | NetworkStateChanged (connected : Bool)
  | DeviceStateChanged (ieee_address : List Nat) (endpoint : Nat) (state_on : Bool)
deriving DecidableEq, Repr

/-- `DashMap::get` by key: first device with the given IEEE address. -/
def findDevice (devices : List ZigbeeDevice) (ieee : List Nat) : Option ZigbeeDevice :=
  devices.find? (fun d => d.ieee_address == ieee)

/-- `DashMap::get_mut` + in-place edit: rewrite the first matching entry. -/
def updateFirst (devices : List ZigbeeDevice) (p : ZigbeeDevice → Bool)
    (f : ZigbeeDevice → ZigbeeDevice) : List ZigbeeDevice :=
  match devices with
  | [] => []
  | d :: rest => if p d then f d :: rest else d :: updateFirst rest p f

/-- The Home-Automation On/Off branch of the network manager's event
listener (network.rs lines 213-284): resolve the commanded state, look up
the source device by short address and emit `DeviceStateChanged`.  The
returned inventory and event list are exactly what the Rust code produces —
in particular the code never writes the resolved state back into the
inventory. -/
def onOffIndicationStep (devices : List ZigbeeDevice) (ind : ApsDataIndication) :
    List ZigbeeDevice × List NetworkEvent :=
  if ind.profile_id = HOME_AUTOMATION then
    match ZclFrame.parse ind.asdu with
    | .ok zcl =>
      if ind.cluster_id = ON_OFF ∧ zcl.isClusterSpecific then
        let cmdState : Option (Option Bool) :=
          if zcl.command_id = 0x00 then some (some false)
          else if zcl.command_id = 0x01 then some (some true)
          else if zcl.command_id = 0x02 then some none
          else none
        match cmdState with
        | none => (devices, [])
        | some state_on =>
          match devices.find? (fun d => d.nwk_address == ind.src_short_addr) with
          | none => (devices, [])
          | some dev =>
            let resolved : Bool :=
              match state_on with
              | some s => s
              | none =>
                match findDevice devices dev.ieee_address with
                | some cur => !(cur.state_on.getD false)
                | none => true
            (devices,
              [NetworkEvent.DeviceStateChanged dev.ieee_address ind.src_endpoint resolved])
      else (devices, [])
    | .error _ => (devices, [])
  else (devices, [])

/-- `ZigbeeNetwork::send_on_off` (network.rs lines 527-585).  `sendOk`
stands for the transport call's outcome; the result carries the APS request
handed to the transport, the updated inventory, the emitted events and
whether the inventory was persisted. -/
def sendOnOff (devices : List ZigbeeDevice) (ieee : List Nat) (endpoint : Nat)
    (command : OnOffCommand) (sendOk : Bool) :
    Except NetworkError (ApsDataRequest × List ZigbeeDevice × List NetworkEvent × Bool) :=
  match findDevice devices ieee with
  | none => .error .DeviceNotFound
  | some device =>
    let short_addr := device.nwk_address
    let current_state := device.state_on
    let zcl_frame := ZclFrame.onOffCommand 1 command
    let asdu := zcl_frame.serialize
    let request := ApsDataRequest.new 1 short_addr endpoint ON_OFF asdu
    if sendOk then
      let new_state : Option Bool :=
        match command with
        | .On => some true
        | .Off => some false
        | .Toggle => current_state.map (fun s => !s)
      match new_state with
      | some state_on =>
        .ok (request,
          updateFirst devices (fun d => d.ieee_address == ieee)
            (fun d => { d with state_on := some state_on }),
          [NetworkEvent.DeviceStateChanged ieee endpoint state_on], true)
      | none => .ok (request, devices, [], false)
    else .error (.Protocol .Timeout)

/-- The field edit `update_device_metadata` performs on the addressed
device: `Some(name)` replaces `friendly_name` (empty string clears it),
`Some(cat)` replaces `category`, `None` leaves the field untouched. -/
def applyMetadata (friendly_name : Option String) (category : Option DeviceCategory)
    (d : ZigbeeDevice) : ZigbeeDevice :=
  { d with
    friendly_name :=
      match friendly_name with
      | some name => if name = "" then none else some name
      | none => d.friendly_name,
    category :=
      match category with
      | some cat => cat
      | none => d.category }

/-- `ZigbeeNetwork::update_device_metadata` (network.rs lines 650-681):
pure local edit of `friendly_name` / `category`, `DeviceUpdated` event,
persistence. -/
def updateDeviceMetadata (devices : List ZigbeeDevice) (ieee : List Nat)
    (friendly_name : Option String) (category : Option DeviceCategory) :
    Except NetworkError (ZigbeeDevice × List ZigbeeDevice × List NetworkEvent × Bool) :=
  match findDevice devices ieee with
  | none => .error .DeviceNotFound
  | some device =>
    .ok (applyMetadata friendly_name category device,
      updateFirst devices (fun d => d.ieee_address == ieee)
        (applyMetadata friendly_name category),
      [NetworkEvent.DeviceUpdated ieee], true)

/-- Concrete inventory entry used by the C3 evaluation: a known wall switch
with cached `state_on = false`. -/
def sampleSwitch : ZigbeeDevice :=
  { ieee_address := [0x77, 0x66, 0x55, 0x44, 0x33, 0x22, 0x11, 0x00]
    nwk_address := 0xABCD
    device_type := .EndDevice
    category := .Switch
    manufacturer := none
    model := none
    friendly_name := none
    endpoints := []
    last_seen := none
    lqi := none
    available := true
    state_on := some false }

/-- Concrete APS indication used by the C3 evaluation: Home-Automation
On/Off Toggle (`ASDU 01 07 02`) from `sampleSwitch`'s short address,
endpoint 3. -/
def sampleToggleIndication : ApsDataIndication :=
  { device_state := DeviceState.fromByte 0x22
    dest_addr_mode := .Nwk
    dest_addr := 0x0000
    dest_endpoint := 1
    src_addr_mode := .Nwk
    src_short_addr := 0xABCD
    src_ieee_addr := none
    src_endpoint := 3
    profile_id := 0x0104
    cluster_id := 0x0006
    asdu := [0x01, 0x07, 0x02]
    lqi := 255
    rssi := -50 }

/-! ## String utilities shared by the IEEE-address and time parsers

Rust's `str::split(':')` and `u8::from_str_radix(_, 16)` are embedded over
the character list of the string (`String.data`); for the ASCII inputs
involved, Rust's byte indexing coincides with character indexing. -/

/-- `str::split(sep)`: splits on every separator, keeping empty pieces. -/
def splitCh (sep : Char) : List Char → List (List Char)
  | [] => [[]]
  | c :: rest =>
    match splitCh sep rest with
    | [] => [[c]]
    | g :: gs => if c = sep then [] :: g :: gs else (c :: g) :: gs

/-- Value of one hexadecimal digit (`0-9a-fA-F`). -/
def hexDigitVal (c : Char) : Option Nat :=
  if '0' ≤ c ∧ c ≤ '9' then some (c.toNat - 48)
  else if 'a' ≤ c ∧ c ≤ 'f' then some (c.toNat - 87)
  else if 'A' ≤ c ∧ c ≤ 'F' then some (c.toNat - 55)
  else none

/-- `u8::from_str_radix(s, 16)`: optional leading `+`, at least one hex
digit, error on overflow past `u8::MAX` (checked accumulation overflows
exactly when the value exceeds 255). -/
def u8FromHexStr (cs : List Char) : Option Nat :=
  let digits := if cs.head? = some '+' then cs.tail else cs
  if digits.isEmpty then none
  else
    match digits.mapM hexDigitVal with
    | none => none
    | some ds =>
      let v := ds.foldl (fun acc d => acc * 16 + d) 0
      if v ≤ 255 then some v else none

/-- Lowercase hex digit character for a nibble. -/
def hexDigitChar (n : Nat) : Char :=
  if n < 10 then Char.ofNat (48 + n) else Char.ofNat (87 + n)

/-- Two lowercase hex digits of a byte. -/
def byteHexChars (b : Nat) : List Char :=
  [hexDigitChar (b / 16), hexDigitChar (b % 16)]

/-- Colon-separated lowercase hex spelling of a byte string (the canonical
IEEE-address display form, applied to display-order bytes). -/
def colonHexChars : List Nat → List Char
  | [] => []
  | [b] => byteHexChars b
  | b :: rest => byteHexChars b ++ ':' :: colonHexChars rest

/-- Hex spelling without colons. -/
def plainHexChars (bs : List Nat) : List Char :=
  bs.flatMap byteHexChars

/-! ## IEEE-address parsers
(src/crates/casita-assistant-api/src/main.rs `parse_ieee_address`,
src/crates/automation-engine/src/evaluator.rs `parse_ieee_address`,
src/crates/automation-engine/src/executor.rs `parse_ieee_address`) -/

/-- `AutomationError` (automation-engine/src/error.rs).  The `Io`/`Json`
wrappers carry foreign error values, elided here. -/
inductive AutomationError where
  | NotFound (id : String)
  | Disabled (id : String)
  | InvalidTrigger (detail : String)
  | InvalidCondition (detail : String)
  | InvalidAction (detail : String)
  | InvalidCron (detail : String)
  | InvalidTimeFormat (detail : String)
  | DeviceNotFound (detail : String)
  | DeviceControlFailed (detail : String)
  | CircularReference (detail : String)
  | Io
  | Json
  | Network (detail : String)
deriving DecidableEq, Repr

/-- `parse_ieee_address` of the API layer (main.rs lines 252-283): accepts
the colon-separated form and, as a fallback for non-8-part inputs of length
16, the colon-less form; both are byte-reversed into the internal
little-endian order. -/
def apiParseIeee (s : String) : Option (List Nat) :=
  let parts := splitCh ':' s.data
  if parts.length ≠ 8 then
    if s.data.length = 16 then
      match (List.range 8).mapM
          (fun i => u8FromHexStr ((s.data.drop (i * 2)).take 2)) with
      | some bytes => some bytes.reverse
      | none => none
    else none
  else
    match parts.mapM u8FromHexStr with
    | some bytes => if bytes.length = 8 then some bytes.reverse else none
    | none => none

/-- `parse_ieee_address` of the condition evaluator (evaluator.rs lines
115-135): splits on `:` only — no colon-less fallback. -/
def evaluatorParseIeee (s : String) : Except AutomationError (List Nat) :=
  match (splitCh ':' s.data).mapM u8FromHexStr with
  | none => .error (.InvalidAction "Invalid IEEE address")
  | some bytes =>
    if bytes.length ≠ 8 then .error (.InvalidAction "IEEE address must have 8 bytes")
    else .ok bytes.reverse

/-- `parse_ieee_address` of the action executor (executor.rs lines 146-166):
textually the same algorithm as the evaluator's. -/
def executorParseIeee (s : String) : Except AutomationError (List Nat) :=
  match (splitCh ':' s.data).mapM u8FromHexStr with
  | none => .error (.InvalidAction "Invalid IEEE address")
  | some bytes =>
    if bytes.length ≠ 8 then .error (.InvalidAction "IEEE address must have 8 bytes")
    else .ok bytes.reverse

/-! ## Condition evaluator (src/crates/automation-engine/src/evaluator.rs)

`NaiveTime` values are modelled as seconds since midnight (chrono's `Ord`
on times); `Local::now().time()` becomes an explicit `now` in the
evaluation context, the local weekday an explicit `today`. -/

/-- Decimal digit value. -/
def digitVal (c : Char) : Option Nat :=
  if '0' ≤ c ∧ c ≤ '9' then some (c.toNat - 48) else none

/-- One numeric field of chrono's `%H` / `%M`: one or two decimal digits,
greedy. -/
def parseNumField : List Char → Option (Nat × List Char)
  | [] => none
  | c1 :: rest =>
    match digitVal c1 with
    | none => none
    | some v1 =>
      match rest with
      | c2 :: rest2 =>
        match digitVal c2 with
        | some v2 => some (v1 * 10 + v2, rest2)
        | none => some (v1, rest)
      | [] => some (v1, [])

/-- `parse_time` (evaluator.rs):
`NaiveTime::parse_from_str(s, "%H:%M")` — hour, literal `:`, minute, end of
input, with range validation — as seconds since midnight. -/
def parseTimeHHMM (s : String) : Option Nat :=
  match parseNumField s.data with
  | none => none
  | some (h, rest) =>
    match rest with
    | ':' :: rest2 =>
      match parseNumField rest2 with
      | none => none
      | some (m, rest3) =>
        if rest3 = [] ∧ h < 24 ∧ m < 60 then some (h * 3600 + m * 60) else none
    | _ => none

/-- `ConditionEvaluator::evaluate_time_range`: inclusive bounds, wrap past
midnight when `end < start`. -/
def evaluateTimeRange (start endT : String) (now : Nat) : Except AutomationError Bool :=
  match parseTimeHHMM start with
  | none => .error (.InvalidTimeFormat start)
  | some startTime =>
    match parseTimeHHMM endT with
    | none => .error (.InvalidTimeFormat endT)
    | some endTime =>
      .ok (if startTime ≤ endTime then
            decide (startTime ≤ now) && decide (now ≤ endTime)
          else
            decide (startTime ≤ now) || decide (now ≤ endTime))

/-- `ConditionEvaluator::evaluate_day_of_week`: empty set means every day. -/
def evaluateDayOfWeek (days : List Nat) (today : Nat) : Except AutomationError Bool :=
  if days.isEmpty then .ok true
  else .ok (days.contains today)

/-- `ConditionEvaluator::evaluate_device_available`: `false` without a
network; otherwise compare the inventory's `available` flag (default
`false` for unknown devices) with the wanted value. -/
def evaluateDeviceAvailable (network : Option (List ZigbeeDevice))
    (device_ieee : String) (should_be_available : Bool) :
    Except AutomationError Bool :=
  match network with
  | none => .ok false
  | some devices =>
    match evaluatorParseIeee device_ieee with
    | .error e => .error e
    | .ok ieee =>
      let is_available := ((findDevice devices ieee).map (fun d => d.available)).getD false
      .ok (is_available == should_be_available)

/-- `Condition` (automation-engine/src/model.rs). -/
inductive Condition where
  | TimeRange (start endT : String)
  | DayOfWeek (days : List Nat)
  | DeviceAvailable (device_ieee : String) (available : Bool)
  | And (conditions : List Condition)
  | Or (conditions : List Condition)
  | Not (condition : Condition)

/-- Evaluation context: local wall-clock time (seconds since midnight),
local weekday (0 = Sunday) and the optional device inventory. -/
structure EvalCtx where
  now : Nat
  today : Nat
  network : Option (List ZigbeeDevice)

mutual

/-- `ConditionEvaluator::evaluate` (evaluator.rs lines 31-57). -/
def evaluate (ctx : EvalCtx) : Condition → Except AutomationError Bool
  | .TimeRange start endT => evaluateTimeRange start endT ctx.now
  | .DayOfWeek days => evaluateDayOfWeek days ctx.today
  | .DeviceAvailable device_ieee available =>
      evaluateDeviceAvailable ctx.network device_ieee available
  | .And conditions => evalAndList ctx conditions
  | .Or conditions => evalOrList ctx conditions
  | .Not condition => do
      let b ← evaluate ctx condition
      pure (!b)

/-- The `And` arm's loop: short-circuit on the first `false`. -/
def evalAndList (ctx : EvalCtx) : List Condition → Except AutomationError Bool
  | [] => .ok true
  | c :: rest => do
      let b ← evaluate ctx c
      if b then evalAndList ctx rest else .ok false

/-- The `Or` arm's loop: short-circuit on the first `true`. -/
def evalOrList (ctx : EvalCtx) : List Condition → Except AutomationError Bool
  | [] => .ok false
  | c :: rest => do
      let b ← evaluate ctx c
      if b then .ok true else evalOrList ctx rest

end

/-! ## Automation model and scheduler
(src/crates/automation-engine/src/model.rs, scheduler.rs)

The scheduler's `DashMap<String, JoinHandle<()>>` is modelled as an
association list `timers` with unique keys, and the set of spawned, not yet
aborted timer tasks as a list `tasks` of `(automation id, task token)`
pairs; `tokio::spawn` draws a fresh token, `JoinHandle::abort` deletes the
task.  The external `cron` crate's expression parser is a parameter
`cronOk`. -/

/-- `StateChange` (model.rs). -/
inductive StateChange where
  | Any | Available | Unavailable | Joined | Left | TurnedOn | TurnedOff | Toggled
deriving DecidableEq, Repr

/-- `ScheduleSpec` (model.rs). -/
inductive ScheduleSpec where
  | TimeOfDay (time : String) (days : List Nat)
  | Interval (seconds : Nat)
  | Cron (expression : String)
deriving DecidableEq, Repr

/-- `Trigger` (model.rs). -/
inductive Trigger where
  | DeviceState (device_ieee : String) (endpoint : Option Nat) (state_change : StateChange)
  | Schedule (schedule : ScheduleSpec)
  | Manual
deriving DecidableEq, Repr

/-- `LogLevel` (model.rs). -/
inductive LogLevel where
  | Debug | Info | Warn | Error
deriving DecidableEq, Repr

/-- `DeviceCommand` (model.rs). -/
inductive DeviceCommand where
  | TurnOn | TurnOff | Toggle
deriving DecidableEq, Repr

/-- `Action` (model.rs). -/
inductive Action where
  | DeviceControl (device_ieee : String) (endpoint : Nat) (command : DeviceCommand)
  | Delay (seconds : Nat)
  | TriggerAutomation (automation_id : String)
  | Log (message : String) (level : LogLevel)
deriving DecidableEq, Repr

/-- `Automation` (model.rs). -/
structure Automation where
  id : String
  name : String
  description : Option String
  enabled : Bool
  trigger : Trigger
  conditions : List Condition
  actions : List Action
  created_at : String
  updated_at : String

/-- Scheduler state: the timer map, the live spawned tasks, and a fresh
token supply. -/
structure SchedState where
  tasks : List (String × Nat)
  timers : List (String × Nat)
  nextTok : Nat
deriving DecidableEq, Repr

/-- The fresh scheduler (`Scheduler::new`). -/
def SchedState.empty : SchedState := ⟨[], [], 0⟩

/-- `Scheduler::remove`: pop the map entry for the id (if any) and abort
its task. -/
def removeTimer (st : SchedState) (id : String) : SchedState :=
  match st.timers.find? (fun p => p.1 == id) with
  | some entry =>
    { st with
      timers := st.timers.filter (fun p => !(p.1 == id)),
      tasks := st.tasks.filter (fun p => !(p == entry)) }
  | none => st

/-- `tokio::spawn` + `DashMap::insert`: start a fresh timer task and insert
its handle, replacing (but not aborting) any handle already present under
the key. -/
def spawnTimer (st : SchedState) (id : String) : SchedState :=
  { tasks := st.tasks ++ [(id, st.nextTok)],
    timers := st.timers.filter (fun p => !(p.1 == id)) ++ [(id, st.nextTok)],
    nextTok := st.nextTok + 1 }

/-- `Scheduler::register` (scheduler.rs lines 49-93).  A non-Schedule
trigger returns immediately without touching the timer map; a disabled
automation only removes; otherwise remove-then-spawn, where an invalid
time-of-day string or cron expression errors after the removal and before
the spawn. -/
def Scheduler.register (cronOk : String → Bool) (st : SchedState) (a : Automation) :
    SchedState × Option AutomationError :=
  match a.trigger with
  | .Schedule schedule =>
    if !a.enabled then (removeTimer st a.id, none)
    else
      let st1 := removeTimer st a.id
      match schedule with
      | .Interval _ => (spawnTimer st1 a.id, none)
      | .TimeOfDay time _ =>
        match parseTimeHHMM time with
        | none => (st1, some (.InvalidTimeFormat time))
        | some _ => (spawnTimer st1 a.id, none)
      | .Cron expression =>
        if cronOk expression then (spawnTimer st1 a.id, none)
        else (st1, some (.InvalidCron expression))
  | _ => (st, none)

/-- `Scheduler::update` just re-registers. -/
def Scheduler.update (cronOk : String → Bool) (st : SchedState) (a : Automation) :
    SchedState × Option AutomationError :=
  Scheduler.register cronOk st a

/-- Number of live timer tasks serving a given automation id. -/
def liveTimersFor (st : SchedState) (id : String) : Nat :=
  (st.tasks.filter (fun p => p.1 == id)).length

/-- Well-formedness of a scheduler state: every live task is exactly one
map entry and the map's keys are distinct.  `SchedState.empty` satisfies it
and (as proved below) the operations preserve it. -/
def SchedState.WF (st : SchedState) : Prop :=
  st.tasks = st.timers ∧ (st.timers.map Prod.fst).Nodup

/-- Enabled interval automation used by the C7 scenarios. -/
def autoInterval : Automation :=
  ⟨"auto-1", "tick", none, true, .Schedule (.Interval 2), [], [], "", ""⟩

/-- The same automation id re-registered with a `Manual` trigger. -/
def autoManualSameId : Automation :=
  ⟨"auto-1", "tick", none, true, .Manual, [], [], "", ""⟩

/-! ### SLIP lemmas -/

theorem SlipDecoder.feed_append (d : SlipDecoder) (xs ys : List Nat) :
    d.feed (xs ++ ys) =
      ((d.feed xs).1.feed ys |>.1,
        (d.feed xs).2 ++ ((d.feed xs).1.feed ys).2) := by
  induction xs generalizing d with
  | nil => simp [SlipDecoder.feed]
  | cons b rest ih =>
      simp only [List.cons_append, SlipDecoder.feed, List.append_eq]
      rw [ih]
      simp [List.append_assoc]

/-- Feeding the escape expansion of one byte extends the buffer by that byte
and emits nothing. -/
theorem SlipDecoder.feed_encodeByte (buf : List Nat) (b : Nat) :
    SlipDecoder.feed ⟨buf, false⟩ (slipEncodeByte b) = (⟨buf ++ [b], false⟩, []) := by
  by_cases hEnd : b = SLIP_END
  · subst hEnd
    simp [slipEncodeByte, SlipDecoder.feed, SlipDecoder.feedStep, SLIP_END, SLIP_ESC,
      SLIP_ESC_END, SLIP_ESC_ESC]
  · by_cases hEsc : b = SLIP_ESC
    · subst hEsc
      simp [slipEncodeByte, SlipDecoder.feed, SlipDecoder.feedStep, SLIP_END, SLIP_ESC,
        SLIP_ESC_END, SLIP_ESC_ESC]
    · have h1 : b ≠ SLIP_END := hEnd
      simp [slipEncodeByte, hEnd, hEsc, SlipDecoder.feed, SlipDecoder.feedStep]

/-- Feeding the escaped body of a frame accumulates exactly the original bytes
and emits no frame. -/
theorem SlipDecoder.feed_body (x : List Nat) (buf : List Nat) :
    SlipDecoder.feed ⟨buf, false⟩ (x.flatMap slipEncodeByte) = (⟨buf ++ x, false⟩, []) := by
  induction x generalizing buf with
  | nil => simp [SlipDecoder.feed]
  | cons b rest ih =>
      rw [List.flatMap_cons, SlipDecoder.feed_append, SlipDecoder.feed_encodeByte]
      simp [ih]

/-- **C1 (counterexample).** The SLIP round trip fails on the empty byte
string: consecutive END bytes are dropped, so `decode (encode []) = []`,
not `[[]]`. -/
theorem slip_roundtrip_fails_on_empty :
    slipDecode (slipEncode []) = [] ∧ slipDecode (slipEncode []) ≠ [[]] := by
  constructor <;> decide

/-- **C1 (amended).** For every non-empty byte string `x`, feeding the SLIP
encoding of `x` into a fresh SLIP decoder yields exactly the single frame
`x`: `decode (encode x) = [x]`. -/
theorem slip_roundtrip (x : List Nat) (hx : x ≠ []) :
    slipDecode (slipEncode x) = [x] := by
  have hbody := SlipDecoder.feed_body x []
  have hne : x.isEmpty = false := by
    cases x with
    | nil => exact absurd rfl hx
    | cons a l => rfl
  show (SlipDecoder.init.feed (SLIP_END :: (x.flatMap slipEncodeByte ++ [SLIP_END]))).2 = [x]
  rw [SlipDecoder.feed]
  have hstep : SlipDecoder.init.feedStep SLIP_END = (SlipDecoder.init, []) := by
    simp [SlipDecoder.feedStep, SlipDecoder.init]
  rw [hstep]
  simp only [SlipDecoder.init]
  rw [SlipDecoder.feed_append, hbody]
  simp [SlipDecoder.feed, SlipDecoder.feedStep, hne]

/-- Witness for `slip_roundtrip` at the source's own round-trip test vector. -/
theorem slip_roundtrip_witness :
    slipDecode (slipEncode [0x01, 0xC0, 0x02, 0xDB, 0x03, 0x00, 0xFF])
      = [[0x01, 0xC0, 0x02, 0xDB, 0x03, 0x00, 0xFF]] :=
  slip_roundtrip [0x01, 0xC0, 0x02, 0xDB, 0x03, 0x00, 0xFF] (by decide)

theorem CommandId.fromU8_toU8 (c : CommandId) : CommandId.fromU8 c.toU8 = some c := by
  cases c <;> rfl

/-! ### Frame codec lemmas -/

theorem crc16_lt (data : List Nat) : crc16 data < 65536 :=
  Nat.mod_lt _ (by norm_num)

theorem sum_set_add (l : List Nat) (i v : Nat) (h : i < l.length) :
    (l.set i v).sum + l.getD i 0 = l.sum + v := by
  induction l generalizing i with
  | nil => simp at h
  | cons a t ih =>
      cases i with
      | zero => simp [List.set, List.getD]; omega
      | succ j =>
          have hj : j < t.length := by simpa using h
          have := ih j hj
          simp only [List.set, List.sum_cons, List.getD_cons_succ]
          omega

theorem getD_le_sum (l : List Nat) (i : Nat) : l.getD i 0 ≤ l.sum := by
  induction l generalizing i with
  | nil => simp [List.getD]
  | cons a t ih =>
      cases i with
      | zero => simp
      | succ j =>
          have := ih j
          simp only [List.getD_cons_succ, List.sum_cons]
          omega

theorem testBit_true_ge (b k : Nat) (h : b.testBit k = true) : 2 ^ k ≤ b := by
  rcases Nat.lt_or_ge b (2 ^ k) with hlt | hge
  · have : b.testBit k = false := Nat.testBit_lt_two_pow hlt
    rw [this] at h; cases h
  · exact hge

/-- Flipping one bit `k < 8` of one in-range byte changes the 16-bit
wrapping sum. -/
theorem sum_flip_ne (l : List Nat) (i k : Nat) (hi : i < l.length) (hk : k < 8) :
    (l.set i (flipByte (l.getD i 0) k)).sum % 65536 ≠ l.sum % 65536 := by
  have hsum := sum_set_add l i (flipByte (l.getD i 0) k) hi
  have hle := getD_le_sum l i
  have hpow1 : 1 ≤ 2 ^ k := Nat.one_le_two_pow
  have hpow2 : 2 ^ k ≤ 128 := by
    calc 2 ^ k ≤ 2 ^ 7 := Nat.pow_le_pow_right (by norm_num) (by omega)
    _ = 128 := by norm_num
  unfold flipByte at hsum ⊢
  by_cases hbit : (l.getD i 0).testBit k
  · have hb := testBit_true_ge _ _ hbit
    simp only [hbit, if_true] at hsum ⊢
    omega
  · simp only [hbit, Bool.false_eq_true, if_false] at hsum ⊢
    omega

/-- `crc16` is injective in the 16-bit sum residue. -/
theorem crc16_ne_of_sum_ne (a b : List Nat) (h : a.sum % 65536 ≠ b.sum % 65536) :
    crc16 a ≠ crc16 b := by
  unfold crc16
  have ha : a.sum % 65536 < 65536 := Nat.mod_lt _ (by norm_num)
  have hb : b.sum % 65536 < 65536 := Nat.mod_lt _ (by norm_num)
  omega

/-- Reading the little-endian CRC field back from the end of a frame. -/
theorem getD_crc_field (body : List Nat) (c : Nat) (hc : c < 65536) :
    u16fromLe ((body ++ u16le c).getD body.length 0)
        ((body ++ u16le c).getD (body.length + 1) 0) = c := by
  rw [List.getD_append_right _ _ _ _ (Nat.le_refl _),
    List.getD_append_right _ _ _ _ (Nat.le_add_right _ _)]
  simp [u16le, u16fromLe]
  omega

/-- **C2 (theorem).** Frame codec round trip and CRC bit-flip detection: for
every frame built from a command id, sequence and payload whose 16-bit
length field fits, (i) deserializing its serialization returns the same
command id, sequence and payload, and (ii) flipping any single bit of the
serialized bytes outside the trailing 2-byte CRC field makes
deserialization fail with `CrcMismatch` or `InvalidFrame`. -/
theorem frame_codec_crc (cid : CommandId) (seq : Nat) (p : List Nat)
    (hlen : 5 + p.length ≤ 65535) :
    Frame.deserialize (Frame.serialize (Frame.new cid seq p)) = .ok (Frame.new cid seq p) ∧
    ∀ i k, i < (Frame.serialize (Frame.new cid seq p)).length - 2 → k < 8 →
      isCrcOrInvalid (Frame.deserialize (flipBit (Frame.serialize (Frame.new cid seq p)) i k))
        = true := by
  have hser : Frame.serialize (Frame.new cid seq p) =
      (CommandId.toU8 cid :: seq :: 0 :: u16le (5 + p.length) ++ p) ++
        u16le (crc16 (CommandId.toU8 cid :: seq :: 0 :: u16le (5 + p.length) ++ p)) := rfl
  set body := CommandId.toU8 cid :: seq :: 0 :: u16le (5 + p.length) ++ p with hbody
  set crc := crc16 body with hcrc
  set data := body ++ u16le crc with hdata
  have hblen : body.length = 5 + p.length := by simp [hbody, u16le]; omega
  have hdlen : data.length = 7 + p.length := by simp [hdata, u16le]; omega
  have hcrclt : crc < 65536 := crc16_lt body
  have hoff : data.length - 2 = body.length := by omega
  constructor
  · -- round trip
    rw [hser, Frame.deserialize]
    have h7 : ¬(data.length < 7) := by omega
    simp only [h7, if_false, hoff]
    have hrecv : u16fromLe (data.getD body.length 0) (data.getD (body.length + 1) 0)
        = crc := by
      rw [hdata]; exact getD_crc_field body crc hcrclt
    have hcalc : crc16 (List.take body.length data) = crc := by
      rw [hdata, List.take_left' rfl]
    rw [hrecv, hcalc, if_neg (fun h => h rfl)]
    have hg0 : data.getD 0 0 = CommandId.toU8 cid := by
      rw [hdata, hbody]; rfl
    rw [hg0, CommandId.fromU8_toU8]
    have hg3 : data.getD 3 0 = (5 + p.length) % 256 := by
      rw [hdata, hbody]; rfl
    have hg4 : data.getD 4 0 = (5 + p.length) / 256 % 256 := by
      rw [hdata, hbody]; rfl
    have hfl : u16fromLe (data.getD 3 0) (data.getD 4 0) = 5 + p.length := by
      rw [hg3, hg4]; unfold u16fromLe; omega
    have hg1 : data.getD 1 0 = seq := by rw [hdata, hbody]; rfl
    have hg2 : data.getD 2 0 = 0 := by rw [hdata, hbody]; rfl
    have hdrop : data.drop 5 = p ++ u16le crc := by
      rw [hdata, hbody]
      simp [u16le]
    have hpay : List.take (body.length - 5) (data.drop 5) = p := by
      rw [hdrop]
      exact List.take_left' (by omega)
    have hif : ¬(5 + p.length + 2 ≠ data.length) := by omega
    simp only [hfl, hif, if_false, hg1, hg2, hpay]
    rfl
  · -- single-bit corruption outside the CRC field
    intro i k hi hk
    rw [hser] at hi ⊢
    have hi' : i < body.length := by omega
    have hflip : flipBit data i k =
        body.set i (flipByte (body.getD i 0) k) ++ u16le crc := by
      unfold flipBit
      rw [hdata, List.getD_append _ _ _ _ hi', List.set_append_left _ _ hi']
    set body' := body.set i (flipByte (body.getD i 0) k) with hbody'
    have hblen' : body'.length = body.length := by simp [hbody']
    have hlen' : (flipBit data i k).length = data.length := by
      unfold flipBit; simp
    rw [hflip, Frame.deserialize]
    have h7 : ¬(body' ++ u16le crc).length < 7 := by
      simp [u16le]; omega
    have hofflen : (body' ++ u16le crc).length - 2 = body'.length := by
      simp [u16le]
    simp only [h7, if_false, hofflen]
    have hlo : (body' ++ u16le crc).getD body'.length 0 = crc % 256 := by
      rw [List.getD_append_right _ _ _ _ (Nat.le_refl _)]
      simp [u16le]
    have hhi2 : (body' ++ u16le crc).getD (body'.length + 1) 0 = crc / 256 % 256 := by
      rw [List.getD_append_right _ _ _ _ (Nat.le_add_right _ _)]
      simp [u16le]
    have hrecv : u16fromLe ((body' ++ u16le crc).getD body'.length 0)
        ((body' ++ u16le crc).getD (body'.length + 1) 0) = crc := by
      rw [hlo, hhi2]; unfold u16fromLe; omega
    have htake : (body' ++ u16le crc).take body'.length = body' := List.take_left' rfl
    rw [hrecv, htake]
    have hne : crc ≠ crc16 body' := by
      rw [hcrc]
      exact (crc16_ne_of_sum_ne body' body (sum_flip_ne body i k hi' hk)).symm
    rw [if_pos hne]
    rfl

/-- Witness for `frame_codec_crc`: a concrete `Version` request with a
4-byte payload, with bit 0 of byte 0 flipped in the corruption part. -/
theorem frame_codec_crc_witness :
    Frame.deserialize (Frame.serialize (Frame.new .Version 1 [9, 0, 0, 0]))
        = .ok (Frame.new .Version 1 [9, 0, 0, 0]) ∧
    isCrcOrInvalid (Frame.deserialize
        (flipBit (Frame.serialize (Frame.new .Version 1 [9, 0, 0, 0])) 0 0)) = true := by
  have h := frame_codec_crc .Version 1 [9, 0, 0, 0] (by decide)
  exact ⟨h.1, h.2 0 0 (by decide) (by decide)⟩

theorem readAt_ok (data : List Nat) (i : Nat) (h : i < data.length) :
    readAt data i = .ok (data.getD i 0) := by
  unfold readAt
  rw [List.getElem?_eq_getElem h, List.getD_eq_getElem _ _ h]

theorem except_ok_bind {ε α β : Type} (x : α) (f : α → Except ε β) :
    (Except.ok x : Except ε α) >>= f = f x := rfl

theorem except_pure_bind {ε α β : Type} (x : α) (f : α → Except ε β) :
    (pure x : Except ε α) >>= f = f x := rfl

/-- **C5 (counterexample).** `ApsDataIndication::parse` is not panic-free:
on this 15-byte input (valid Nwk address modes, all other bytes zero) the
unchecked read of the ASDU length at offset 15 indexes out of bounds. -/
theorem aps_indication_parse_panics :
    ApsDataIndication.parse [0, 0, 0, 2, 0, 0, 0, 2, 0, 0, 0, 0, 0, 0, 0]
      = .error .panicked := by rfl

/-- **C5 (amended).** For inputs of at least 15 bytes, an address-mode byte
outside {1,2,3,4} — the destination mode at offset 3, or the source mode at
its computed offset when that offset is in bounds — makes
`ApsDataIndication::parse` return `InvalidFrame` (not a panic). -/
theorem aps_indication_bad_mode_invalid (data : List Nat) (h15 : 15 ≤ data.length) :
    (AddressMode.tryFromU8 (data.getD 3 0) = none →
      ApsDataIndication.parse data = .error (.error (.InvalidFrame "Unknown dest addr mode"))) ∧
    (∀ m, AddressMode.tryFromU8 (data.getD 3 0) = some m →
      5 + destWidth m < data.length →
      AddressMode.tryFromU8 (data.getD (5 + destWidth m) 0) = none →
      ApsDataIndication.parse data = .error (.error (.InvalidFrame "Unknown src addr mode"))) := by
  have h0 := readAt_ok data 0 (by omega)
  have h1 := readAt_ok data 1 (by omega)
  have h2 := readAt_ok data 2 (by omega)
  have h3 := readAt_ok data 3 (by omega)
  have h4 := readAt_ok data 4 (by omega)
  have h5 := readAt_ok data 5 (by omega)
  have hn15 : ¬(data.length < 15) := by omega
  constructor
  · intro hbad
    simp only [ApsDataIndication.parse, hn15, if_false, h0, h1, h2, h3, hbad,
      except_ok_bind, except_pure_bind]
    rfl
  · intro m hm hw hbad
    cases m with
    | Group =>
        have h6 := readAt_ok data 6 (by omega)
        have h7 := readAt_ok data 7 (by omega)
        simp only [destWidth] at hbad
        simp only [ApsDataIndication.parse, hn15, if_false, h0, h1, h2, h3, hm,
          h4, h5, h6, h7, hbad, except_ok_bind, except_pure_bind]
        rfl
    | Nwk =>
        have h6 := readAt_ok data 6 (by omega)
        have h7 := readAt_ok data 7 (by omega)
        simp only [destWidth] at hbad
        simp only [ApsDataIndication.parse, hn15, if_false, h0, h1, h2, h3, hm,
          h4, h5, h6, h7, hbad, except_ok_bind, except_pure_bind]
        rfl
    | Ieee =>
        have h12 := readAt_ok data 12 (by omega)
        have h13 := readAt_ok data 13 (by omega)
        simp only [destWidth] at hbad
        simp only [ApsDataIndication.parse, hn15, if_false, h0, h1, h2, h3, hm,
          h12, h13, hbad, except_ok_bind, except_pure_bind]
        rfl
    | NwkAndIeee =>
        have h14 := readAt_ok data 14 (by omega)
        have h15' := readAt_ok data 15 (by simp only [destWidth] at hw; omega)
        simp only [destWidth] at hbad
        simp only [ApsDataIndication.parse, hn15, if_false, h0, h1, h2, h3, hm,
          h4, h5, h14, h15', hbad, except_ok_bind, except_pure_bind]
        rfl

/-- Witness for `aps_indication_bad_mode_invalid`: dest mode byte 9 at
offset 3 (first part), and src mode byte 9 at offset 7 after a valid Nwk
destination (second part). -/
theorem aps_indication_bad_mode_invalid_witness :
    ApsDataIndication.parse [0, 0, 0, 9, 0, 0, 0, 2, 0, 0, 0, 0, 0, 0, 0]
        = .error (.error (.InvalidFrame "Unknown dest addr mode")) ∧
    ApsDataIndication.parse [0, 0, 0, 2, 0, 0, 0, 9, 0, 0, 0, 0, 0, 0, 0]
        = .error (.error (.InvalidFrame "Unknown src addr mode")) :=
  ⟨(aps_indication_bad_mode_invalid [0, 0, 0, 9, 0, 0, 0, 2, 0, 0, 0, 0, 0, 0, 0]
      (by decide)).1 (by decide),
   (aps_indication_bad_mode_invalid [0, 0, 0, 2, 0, 0, 0, 9, 0, 0, 0, 0, 0, 0, 0]
      (by decide)).2 .Nwk (by decide) (by decide) (by decide)⟩

/-! ### Network manager theorems -/

/-- **C3 (code evaluation).** On a cluster-specific On/Off Toggle indication
(profile 0x0104, cluster 0x0006, ASDU `01 07 02`) from a known device whose
cached `state_on` is `false`, the event listener emits
`DeviceStateChanged{ieee, endpoint=3, state_on=true}` — but returns the
inventory unchanged: the device's `state_on` is still `some false`, not the
resolved value, contradicting the claim that the inventory is updated. -/
theorem onoff_indication_emits_but_does_not_update :
    onOffIndicationStep [sampleSwitch] sampleToggleIndication
      = ([sampleSwitch],
         [NetworkEvent.DeviceStateChanged
            [0x77, 0x66, 0x55, 0x44, 0x33, 0x22, 0x11, 0x00] 3 true]) ∧
    sampleSwitch.state_on = some false := by
  constructor <;> rfl

/-- **C4 (theorem).** `send_on_off` on a device present in the inventory
builds a cluster-specific ZCL frame with transaction sequence 1 and the
command's id (ASDU `01 01 cmd`), wraps it in an APS request to cluster
0x0006 with APS-ACK requested addressed to the device's short address, and
on transport success updates the cached `state_on` (On ↦ true, Off ↦ false,
Toggle flips the cached value), emits `DeviceStateChanged` with that state
and persists the inventory. -/
theorem send_on_off_spec (devices : List ZigbeeDevice) (ieee : List Nat) (ep : Nat)
    (cmd : OnOffCommand) (d : ZigbeeDevice) (h : findDevice devices ieee = some d) :
    ∃ req devs evs pers,
      sendOnOff devices ieee ep cmd true = .ok (req, devs, evs, pers) ∧
      req.request_id = 1 ∧ req.dest_addr_mode = .Nwk ∧
      req.dest_short_addr = d.nwk_address ∧ req.dest_endpoint = ep ∧
      req.profile_id = HOME_AUTOMATION ∧ req.cluster_id = ON_OFF ∧
      req.src_endpoint = 1 ∧ req.tx_options = 0x04 ∧
      req.asdu = [0x01, 0x01, cmd.toU8] ∧
      (cmd = .On →
        devs = updateFirst devices (fun x => x.ieee_address == ieee)
            (fun x => { x with state_on := some true }) ∧
        evs = [.DeviceStateChanged ieee ep true] ∧ pers = true) ∧
      (cmd = .Off →
        devs = updateFirst devices (fun x => x.ieee_address == ieee)
            (fun x => { x with state_on := some false }) ∧
        evs = [.DeviceStateChanged ieee ep false] ∧ pers = true) ∧
      (∀ s, cmd = .Toggle → d.state_on = some s →
        devs = updateFirst devices (fun x => x.ieee_address == ieee)
            (fun x => { x with state_on := some (!s) }) ∧
        evs = [.DeviceStateChanged ieee ep (!s)] ∧ pers = true) := by
  cases cmd with
  | On =>
      have hOn : sendOnOff devices ieee ep .On true = .ok
          (ApsDataRequest.new 1 d.nwk_address ep ON_OFF [0x01, 0x01, 0x01],
           updateFirst devices (fun x => x.ieee_address == ieee)
             (fun x => { x with state_on := some true }),
           [.DeviceStateChanged ieee ep true], true) := by
        simp [sendOnOff, h, ZclFrame.onOffCommand, ZclFrame.clusterCommand,
          ZclFrame.serialize, OnOffCommand.toU8]
      refine ⟨_, _, _, _, hOn, rfl, rfl, rfl, rfl, rfl, rfl, rfl, rfl, rfl, ?_, ?_, ?_⟩
      · intro _
        exact ⟨rfl, rfl, rfl⟩
      · intro hc
        exact OnOffCommand.noConfusion hc
      · intro s hc
        exact OnOffCommand.noConfusion hc
  | Off =>
      have hOff : sendOnOff devices ieee ep .Off true = .ok
          (ApsDataRequest.new 1 d.nwk_address ep ON_OFF [0x01, 0x01, 0x00],
           updateFirst devices (fun x => x.ieee_address == ieee)
             (fun x => { x with state_on := some false }),
           [.DeviceStateChanged ieee ep false], true) := by
        simp [sendOnOff, h, ZclFrame.onOffCommand, ZclFrame.clusterCommand,
          ZclFrame.serialize, OnOffCommand.toU8]
      refine ⟨_, _, _, _, hOff, rfl, rfl, rfl, rfl, rfl, rfl, rfl, rfl, rfl, ?_, ?_, ?_⟩
      · intro hc
        exact OnOffCommand.noConfusion hc
      · intro _
        exact ⟨rfl, rfl, rfl⟩
      · intro s hc
        exact OnOffCommand.noConfusion hc
  | Toggle =>
      cases hso : d.state_on with
      | none =>
          have hT : sendOnOff devices ieee ep .Toggle true = .ok
              (ApsDataRequest.new 1 d.nwk_address ep ON_OFF [0x01, 0x01, 0x02],
               devices, [], false) := by
            simp [sendOnOff, h, hso, ZclFrame.onOffCommand, ZclFrame.clusterCommand,
              ZclFrame.serialize, OnOffCommand.toU8]
          refine ⟨_, _, _, _, hT, rfl, rfl, rfl, rfl, rfl, rfl, rfl, rfl, rfl, ?_, ?_, ?_⟩
          · intro hc
            exact OnOffCommand.noConfusion hc
          · intro hc
            exact OnOffCommand.noConfusion hc
          · intro s _ hs
            exact Option.noConfusion hs
      | some s0 =>
          have hT : sendOnOff devices ieee ep .Toggle true = .ok
              (ApsDataRequest.new 1 d.nwk_address ep ON_OFF [0x01, 0x01, 0x02],
               updateFirst devices (fun x => x.ieee_address == ieee)
                 (fun x => { x with state_on := some (!s0) }),
               [.DeviceStateChanged ieee ep (!s0)], true) := by
            simp [sendOnOff, h, hso, ZclFrame.onOffCommand, ZclFrame.clusterCommand,
              ZclFrame.serialize, OnOffCommand.toU8]
          refine ⟨_, _, _, _, hT, rfl, rfl, rfl, rfl, rfl, rfl, rfl, rfl, rfl, ?_, ?_, ?_⟩
          · intro hc
            exact OnOffCommand.noConfusion hc
          · intro hc
            exact OnOffCommand.noConfusion hc
          · intro s _ hs
            cases hs
            exact ⟨rfl, rfl, rfl⟩

/-- Witness for `send_on_off_spec`: turning `sampleSwitch` on at endpoint 1
produces exactly the APS request of scenario S2 and flips the cache to
`true`. -/
theorem send_on_off_witness :
    ∃ req devs evs pers,
      sendOnOff [sampleSwitch] sampleSwitch.ieee_address 1 .On true
          = .ok (req, devs, evs, pers) ∧
      req.request_id = 1 ∧ req.dest_addr_mode = .Nwk ∧
      req.dest_short_addr = sampleSwitch.nwk_address ∧ req.dest_endpoint = 1 ∧
      req.profile_id = HOME_AUTOMATION ∧ req.cluster_id = ON_OFF ∧
      req.src_endpoint = 1 ∧ req.tx_options = 0x04 ∧
      req.asdu = [0x01, 0x01, OnOffCommand.On.toU8] := by
  obtain ⟨req, devs, evs, pers, heq, h1, h2, h3, h4, h5, h6, h7, h8, h9, -⟩ :=
    send_on_off_spec [sampleSwitch] sampleSwitch.ieee_address 1 .On sampleSwitch
      (by rfl)
  exact ⟨req, devs, evs, pers, heq, h1, h2, h3, h4, h5, h6, h7, h8, h9⟩

theorem findDevice_split (pre post : List ZigbeeDevice) (d : ZigbeeDevice)
    (ieee : List Nat) (hpre : ∀ x ∈ pre, (x.ieee_address == ieee) = false)
    (hd : d.ieee_address = ieee) :
    findDevice (pre ++ d :: post) ieee = some d := by
  induction pre with
  | nil => simp [findDevice, List.find?_cons, hd]
  | cons a rest ih =>
      have ha := hpre a (by simp)
      have hrest : ∀ x ∈ rest, (x.ieee_address == ieee) = false :=
        fun x hx => hpre x (by simp [hx])
      simpa [findDevice, List.find?_cons, ha] using ih hrest

theorem updateFirst_split (pre post : List ZigbeeDevice) (d : ZigbeeDevice)
    (p : ZigbeeDevice → Bool) (f : ZigbeeDevice → ZigbeeDevice)
    (hpre : ∀ x ∈ pre, p x = false) (hd : p d = true) :
    updateFirst (pre ++ d :: post) p f = pre ++ f d :: post := by
  induction pre with
  | nil => simp [updateFirst, hd]
  | cons a rest ih =>
      have ha := hpre a (by simp)
      have hrest : ∀ x ∈ rest, p x = false := fun x hx => hpre x (by simp [hx])
      simp [updateFirst, ha, ih hrest]

/-- **C10 (theorem).** `update_device_metadata` touches only the addressed
device's `friendly_name` and `category`: `none` leaves a field as it was, an
empty name clears `friendly_name`, a non-empty name sets it, every other
field of that device and every other device in the inventory are unchanged;
an unknown IEEE yields `DeviceNotFound` (and, the function being pure, no
inventory change). -/
theorem update_device_metadata_spec (ieee : List Nat) (fn : Option String)
    (cat : Option DeviceCategory) :
    (∀ devices : List ZigbeeDevice,
      (∀ x ∈ devices, (x.ieee_address == ieee) = false) →
      updateDeviceMetadata devices ieee fn cat = .error .DeviceNotFound) ∧
    (∀ (pre post : List ZigbeeDevice) (d : ZigbeeDevice),
      (∀ x ∈ pre, (x.ieee_address == ieee) = false) → d.ieee_address = ieee →
      updateDeviceMetadata (pre ++ d :: post) ieee fn cat
          = .ok (applyMetadata fn cat d, pre ++ applyMetadata fn cat d :: post,
                 [.DeviceUpdated ieee], true) ∧
        (fn = none → (applyMetadata fn cat d).friendly_name = d.friendly_name) ∧
        (fn = some "" → (applyMetadata fn cat d).friendly_name = none) ∧
        (∀ name, fn = some name → name ≠ "" →
          (applyMetadata fn cat d).friendly_name = some name) ∧
        (cat = none → (applyMetadata fn cat d).category = d.category) ∧
        (∀ c, cat = some c → (applyMetadata fn cat d).category = c) ∧
        (applyMetadata fn cat d).ieee_address = d.ieee_address ∧
        (applyMetadata fn cat d).nwk_address = d.nwk_address ∧
        (applyMetadata fn cat d).device_type = d.device_type ∧
        (applyMetadata fn cat d).manufacturer = d.manufacturer ∧
        (applyMetadata fn cat d).model = d.model ∧
        (applyMetadata fn cat d).endpoints = d.endpoints ∧
        (applyMetadata fn cat d).last_seen = d.last_seen ∧
        (applyMetadata fn cat d).lqi = d.lqi ∧
        (applyMetadata fn cat d).available = d.available ∧
        (applyMetadata fn cat d).state_on = d.state_on) := by
  constructor
  · intro devices hnone
    have hfind : findDevice devices ieee = none := by
      apply List.find?_eq_none.mpr
      intro x hx
      simp [hnone x hx]
    simp [updateDeviceMetadata, hfind]
  · intro pre post d hpre hd
    have hfind := findDevice_split pre post d ieee hpre hd
    have hupd := updateFirst_split pre post d (fun x => x.ieee_address == ieee)
      (applyMetadata fn cat) hpre (by simp [hd])
    refine ⟨by simp only [updateDeviceMetadata, hfind, hupd], ?_, ?_, ?_, ?_, ?_,
      rfl, rfl, rfl, rfl, rfl, rfl, rfl, rfl, rfl, rfl⟩
    · intro hfn
      subst hfn
      rfl
    · intro hfn
      subst hfn
      rfl
    · intro name hfn hname
      subst hfn
      simp [applyMetadata, hname]
    · intro hcat
      subst hcat
      rfl
    · intro c hcat
      subst hcat
      rfl

/-- Witness for `update_device_metadata_spec`: on an empty inventory every
address is unknown, so the call fails with `DeviceNotFound`. -/
theorem update_device_metadata_witness :
    updateDeviceMetadata [] [0, 0, 0, 0, 0, 0, 0, 0] (some "Lamp") (some .Light)
      = .error .DeviceNotFound :=
  (update_device_metadata_spec [0, 0, 0, 0, 0, 0, 0, 0] (some "Lamp") (some .Light)).1
    [] (by simp)

/-! ### IEEE-address parser theorems -/

theorem hexDigitVal_hexDigitChar : ∀ n, n < 16 → hexDigitVal (hexDigitChar n) = some n := by
  decide

theorem hexDigitChar_ne_colon : ∀ n, n < 16 → hexDigitChar n ≠ ':' := by
  decide

theorem hexDigitChar_ne_plus : ∀ n, n < 16 → hexDigitChar n ≠ '+' := by
  decide

theorem u8FromHexStr_byteHex (b : Nat) (hb : b < 256) :
    u8FromHexStr (byteHexChars b) = some b := by
  have h1 : b / 16 < 16 := by omega
  have h2 : b % 16 < 16 := by omega
  have hplus : ([hexDigitChar (b / 16), hexDigitChar (b % 16)].head? = some '+') = False := by
    simp [hexDigitChar_ne_plus _ h1]
  simp only [u8FromHexStr, byteHexChars, hplus, if_false, List.tail_cons, List.isEmpty_cons,
    List.mapM, List.mapM.loop, hexDigitVal_hexDigitChar _ h1, hexDigitVal_hexDigitChar _ h2,
    Option.bind_eq_bind, Option.some_bind, List.reverse_cons, List.reverse_nil,
    List.nil_append, List.cons_append, List.foldl_cons, List.foldl_nil, Bool.false_eq_true]
  split
  · simp only [Option.some.injEq]
    omega
  · next hcond => exact absurd (by omega) hcond

theorem splitCh_ne_nil (sep : Char) (cs : List Char) : splitCh sep cs ≠ [] := by
  cases cs with
  | nil => simp [splitCh]
  | cons c rest =>
      simp only [splitCh]
      cases splitCh sep rest with
      | nil => simp
      | cons g gs =>
          by_cases h : c = sep <;> simp [h]

theorem splitCh_cons_sep (sep : Char) (cs : List Char) :
    splitCh sep (sep :: cs) = [] :: splitCh sep cs := by
  cases h : splitCh sep cs with
  | nil => exact absurd h (splitCh_ne_nil sep cs)
  | cons g gs => simp [splitCh, h]

theorem splitCh_pair (sep c1 c2 : Char) (h1 : c1 ≠ sep) (h2 : c2 ≠ sep)
    (cs : List Char) :
    splitCh sep (c1 :: c2 :: sep :: cs) = [c1, c2] :: splitCh sep cs := by
  have hs := splitCh_cons_sep sep cs
  cases h : splitCh sep cs with
  | nil => exact absurd h (splitCh_ne_nil sep cs)
  | cons g gs =>
      rw [h] at hs
      simp [splitCh, hs, h1, h2, h]

theorem splitCh_pair_last (sep c1 c2 : Char) (h1 : c1 ≠ sep) (h2 : c2 ≠ sep) :
    splitCh sep [c1, c2] = [[c1, c2]] := by
  simp [splitCh, h1, h2]

theorem splitCh_no_sep (sep : Char) (cs : List Char) (h : ∀ c ∈ cs, c ≠ sep) :
    splitCh sep cs = [cs] := by
  induction cs with
  | nil => rfl
  | cons c rest ih =>
      have hc := h c (by simp)
      have hrest := ih (fun x hx => h x (by simp [hx]))
      simp [splitCh, hrest, hc]

/-- **C9 (amended).** The API's `parse_ieee_address` accepts both the
canonical colon-separated hex spelling and the colon-less spelling, and the
two automation-engine parsers accept the colon-separated spelling; all of
them map it to the reversed (little-endian internal) byte order.  (The
automation-engine parsers reject the colon-less form, see the
counterexample.) -/
theorem ieee_parsers_agree (a b c d e f g h : Nat)
    (ha : a < 256) (hb : b < 256) (hc : c < 256) (hd : d < 256)
    (he : e < 256) (hf : f < 256) (hg : g < 256) (hh : h < 256) :
    apiParseIeee ⟨colonHexChars [a, b, c, d, e, f, g, h]⟩
        = some [h, g, f, e, d, c, b, a] ∧
    apiParseIeee ⟨plainHexChars [a, b, c, d, e, f, g, h]⟩
        = some [h, g, f, e, d, c, b, a] ∧
    evaluatorParseIeee ⟨colonHexChars [a, b, c, d, e, f, g, h]⟩
        = .ok [h, g, f, e, d, c, b, a] ∧
    executorParseIeee ⟨colonHexChars [a, b, c, d, e, f, g, h]⟩
        = .ok [h, g, f, e, d, c, b, a] := by
  have hne : ∀ n, n < 16 → hexDigitChar n ≠ ':' := hexDigitChar_ne_colon
  have hsplit : splitCh ':' (colonHexChars [a, b, c, d, e, f, g, h]) =
      [byteHexChars a, byteHexChars b, byteHexChars c, byteHexChars d,
       byteHexChars e, byteHexChars f, byteHexChars g, byteHexChars h] := by
    show splitCh ':'
        (byteHexChars a ++ ':' :: (byteHexChars b ++ ':' :: (byteHexChars c ++ ':' ::
          (byteHexChars d ++ ':' :: (byteHexChars e ++ ':' :: (byteHexChars f ++ ':' ::
            (byteHexChars g ++ ':' :: byteHexChars h))))))) = _
    simp only [byteHexChars, List.cons_append, List.nil_append]
    rw [splitCh_pair _ _ _ (hne _ (by omega)) (hne _ (by omega)),
      splitCh_pair _ _ _ (hne _ (by omega)) (hne _ (by omega)),
      splitCh_pair _ _ _ (hne _ (by omega)) (hne _ (by omega)),
      splitCh_pair _ _ _ (hne _ (by omega)) (hne _ (by omega)),
      splitCh_pair _ _ _ (hne _ (by omega)) (hne _ (by omega)),
      splitCh_pair _ _ _ (hne _ (by omega)) (hne _ (by omega)),
      splitCh_pair _ _ _ (hne _ (by omega)) (hne _ (by omega)),
      splitCh_pair_last _ _ _ (hne _ (by omega)) (hne _ (by omega))]
  have hmap : [byteHexChars a, byteHexChars b, byteHexChars c, byteHexChars d,
      byteHexChars e, byteHexChars f, byteHexChars g,
      byteHexChars h].mapM u8FromHexStr = some [a, b, c, d, e, f, g, h] := by
    simp [List.mapM, List.mapM.loop, Option.bind_eq_bind, Option.some_bind,
      u8FromHexStr_byteHex a ha,
      u8FromHexStr_byteHex b hb, u8FromHexStr_byteHex c hc, u8FromHexStr_byteHex d hd,
      u8FromHexStr_byteHex e he, u8FromHexStr_byteHex f hf, u8FromHexStr_byteHex g hg,
      u8FromHexStr_byteHex h hh]
  refine ⟨?_, ?_, ?_, ?_⟩
  · simp only [apiParseIeee, hsplit, hmap]
    norm_num
  · have hnosep : splitCh ':' (plainHexChars [a, b, c, d, e, f, g, h])
        = [plainHexChars [a, b, c, d, e, f, g, h]] := by
      apply splitCh_no_sep
      intro ch hch
      simp only [plainHexChars, List.mem_flatMap, byteHexChars, List.mem_cons,
        List.mem_singleton, List.not_mem_nil, or_false] at hch
      obtain ⟨x, hx, hch⟩ := hch
      have hx16 : x / 16 < 16 ∧ x % 16 < 16 := by
        rcases hx with rfl | rfl | rfl | rfl | rfl | rfl | rfl | rfl <;>
          constructor <;> omega
      rcases hch with rfl | rfl
      · exact hne _ hx16.1
      · exact hne _ hx16.2
    have hlen16 : (plainHexChars [a, b, c, d, e, f, g, h]).length = 16 := by
      simp [plainHexChars, byteHexChars]
    have hrange : List.range 8 = [0, 1, 2, 3, 4, 5, 6, 7] := by decide
    have hdata : (⟨plainHexChars [a, b, c, d, e, f, g, h]⟩ : String).data
        = plainHexChars [a, b, c, d, e, f, g, h] := rfl
    have e0 : ((plainHexChars [a, b, c, d, e, f, g, h]).drop (0 * 2)).take 2
        = byteHexChars a := rfl
    have e1 : ((plainHexChars [a, b, c, d, e, f, g, h]).drop (1 * 2)).take 2
        = byteHexChars b := rfl
    have e2 : ((plainHexChars [a, b, c, d, e, f, g, h]).drop (2 * 2)).take 2
        = byteHexChars c := rfl
    have e3 : ((plainHexChars [a, b, c, d, e, f, g, h]).drop (3 * 2)).take 2
        = byteHexChars d := rfl
    have e4 : ((plainHexChars [a, b, c, d, e, f, g, h]).drop (4 * 2)).take 2
        = byteHexChars e := rfl
    have e5 : ((plainHexChars [a, b, c, d, e, f, g, h]).drop (5 * 2)).take 2
        = byteHexChars f := rfl
    have e6 : ((plainHexChars [a, b, c, d, e, f, g, h]).drop (6 * 2)).take 2
        = byteHexChars g := rfl
    have e7 : ((plainHexChars [a, b, c, d, e, f, g, h]).drop (7 * 2)).take 2
        = byteHexChars h := rfl
    simp only [apiParseIeee, hdata, hnosep, hlen16, hrange, List.mapM, List.mapM.loop,
      e0, e1, e2, e3, e4, e5, e6, e7,
      u8FromHexStr_byteHex a ha, u8FromHexStr_byteHex b hb, u8FromHexStr_byteHex c hc,
      u8FromHexStr_byteHex d hd, u8FromHexStr_byteHex e he, u8FromHexStr_byteHex f hf,
      u8FromHexStr_byteHex g hg, u8FromHexStr_byteHex h hh]
    norm_num
  · simp only [evaluatorParseIeee, hsplit, hmap]
    norm_num
  · simp only [executorParseIeee, hsplit, hmap]
    norm_num

/-- Witness for `ieee_parsers_agree` at the spec's example address
`aa:bb:cc:dd:ee:ff:00:11`. -/
theorem ieee_parsers_agree_witness :
    apiParseIeee ⟨colonHexChars [0xaa, 0xbb, 0xcc, 0xdd, 0xee, 0xff, 0x00, 0x11]⟩
        = some [0x11, 0x00, 0xff, 0xee, 0xdd, 0xcc, 0xbb, 0xaa] ∧
    apiParseIeee ⟨plainHexChars [0xaa, 0xbb, 0xcc, 0xdd, 0xee, 0xff, 0x00, 0x11]⟩
        = some [0x11, 0x00, 0xff, 0xee, 0xdd, 0xcc, 0xbb, 0xaa] ∧
    evaluatorParseIeee ⟨colonHexChars [0xaa, 0xbb, 0xcc, 0xdd, 0xee, 0xff, 0x00, 0x11]⟩
        = .ok [0x11, 0x00, 0xff, 0xee, 0xdd, 0xcc, 0xbb, 0xaa] ∧
    executorParseIeee ⟨colonHexChars [0xaa, 0xbb, 0xcc, 0xdd, 0xee, 0xff, 0x00, 0x11]⟩
        = .ok [0x11, 0x00, 0xff, 0xee, 0xdd, 0xcc, 0xbb, 0xaa] :=
  ieee_parsers_agree 0xaa 0xbb 0xcc 0xdd 0xee 0xff 0x00 0x11
    (by decide) (by decide) (by decide) (by decide)
    (by decide) (by decide) (by decide) (by decide)

/-- **C9 (counterexample).** The automation-engine parsers do not accept
the colon-less spelling: splitting on `:` leaves the whole 16-digit string
as a single part, which overflows `u8` and fails. -/
theorem evaluator_rejects_colonless :
    evaluatorParseIeee "0011223344556677"
        = .error (.InvalidAction "Invalid IEEE address") ∧
    executorParseIeee "0011223344556677"
        = .error (.InvalidAction "Invalid IEEE address") ∧
    apiParseIeee "0011223344556677"
        = some [0x77, 0x66, 0x55, 0x44, 0x33, 0x22, 0x11, 0x00] := by
  refine ⟨?_, ?_, ?_⟩ <;> rfl

/-! ### Condition evaluator theorems -/

/-- **C6 (theorem).** A `TimeRange{start,end}` condition with well-formed
`HH:MM` strings holds iff the wall-clock time lies within the inclusive
bounds, wrapping past midnight when `end < start`. -/
theorem time_range_spec (ctx : EvalCtx) (start endT : String) (s e : Nat)
    (hs : parseTimeHHMM start = some s) (he : parseTimeHHMM endT = some e) :
    evaluate ctx (.TimeRange start endT) = .ok true ↔
      (if s ≤ e then s ≤ ctx.now ∧ ctx.now ≤ e else s ≤ ctx.now ∨ ctx.now ≤ e) := by
  simp only [evaluate, evaluateTimeRange, hs, he]
  by_cases hse : s ≤ e
  · simp [hse]
  · simp [hse]

/-- Witness for `time_range_spec` at the spec's boundary examples:
09:00-17:00 matches 17:00 but not 17:01; 22:00-06:00 matches 23:00 and
05:00 but not 10:00. -/
theorem time_range_spec_witness :
    evaluate ⟨61200, 0, none⟩ (.TimeRange "09:00" "17:00") = .ok true ∧
    ¬(evaluate ⟨61260, 0, none⟩ (.TimeRange "09:00" "17:00") = .ok true) ∧
    evaluate ⟨82800, 0, none⟩ (.TimeRange "22:00" "06:00") = .ok true ∧
    evaluate ⟨18000, 0, none⟩ (.TimeRange "22:00" "06:00") = .ok true ∧
    ¬(evaluate ⟨36000, 0, none⟩ (.TimeRange "22:00" "06:00") = .ok true) := by
  refine ⟨?_, ?_, ?_, ?_, ?_⟩
  · exact (time_range_spec _ _ _ 32400 61200 (by rfl) (by rfl)).mpr (by norm_num)
  · intro h
    have := (time_range_spec _ _ _ 32400 61200 (by rfl) (by rfl)).mp h
    norm_num at this
  · exact (time_range_spec _ _ _ 79200 21600 (by rfl) (by rfl)).mpr (by norm_num)
  · exact (time_range_spec _ _ _ 79200 21600 (by rfl) (by rfl)).mpr (by norm_num)
  · intro h
    have := (time_range_spec _ _ _ 79200 21600 (by rfl) (by rfl)).mp h
    norm_num at this

/-- **C8 (theorem).** The condition evaluator respects boolean algebra:
double negation preserves the value of any condition that evaluates without
error, the empty `And` evaluates to `true`, and the empty `Or` to `false`. -/
theorem condition_boolean_algebra (ctx : EvalCtx) :
    (∀ c b, evaluate ctx c = .ok b → evaluate ctx (.Not (.Not c)) = .ok b) ∧
    evaluate ctx (.And []) = .ok true ∧
    evaluate ctx (.Or []) = .ok false := by
  refine ⟨?_, rfl, rfl⟩
  intro c b h
  simp only [evaluate, h, except_ok_bind, except_pure_bind, Bool.not_not]
  rfl

/-- Witness for `condition_boolean_algebra` at `c = DayOfWeek []` (which
evaluates to `true` without error). -/
theorem condition_boolean_algebra_witness :
    evaluate ⟨0, 0, none⟩ (.Not (.Not (.DayOfWeek []))) = .ok true ∧
    evaluate ⟨0, 0, none⟩ (.And []) = .ok true ∧
    evaluate ⟨0, 0, none⟩ (.Or []) = .ok false :=
  ⟨(condition_boolean_algebra ⟨0, 0, none⟩).1 (.DayOfWeek []) true rfl,
   (condition_boolean_algebra ⟨0, 0, none⟩).2.1,
   (condition_boolean_algebra ⟨0, 0, none⟩).2.2⟩

/-! ### Scheduler lemmas -/

theorem filter_ne_entry_of_nodup (l : List (String × Nat)) (id : String)
    (entry : String × Nat) (hnd : (l.map Prod.fst).Nodup) (hmem : entry ∈ l)
    (hkey : entry.1 = id) :
    l.filter (fun p => !(p == entry)) = l.filter (fun p => !(p.1 == id)) := by
  induction l with
  | nil => rfl
  | cons x t ih =>
      simp only [List.map_cons, List.nodup_cons] at hnd
      obtain ⟨hx, hnd'⟩ := hnd
      rcases List.mem_cons.mp hmem with rfl | hmt
      · have ht1 : t.filter (fun p => !(p == entry)) = t := by
          apply List.filter_eq_self.mpr
          intro p hp
          have hne : p ≠ entry := fun he => hx (List.mem_map.mpr ⟨entry, he ▸ hp, rfl⟩)
          simp [hne]
        have ht2 : t.filter (fun p => !(p.1 == id)) = t := by
          apply List.filter_eq_self.mpr
          intro p hp
          have hne : p.1 ≠ id := fun he =>
            hx (List.mem_map.mpr ⟨p, hp, he.trans hkey.symm⟩)
          simp [hne]
        simp [List.filter_cons, hkey, ht1, ht2]
      · have hmemid : id ∈ t.map Prod.fst := List.mem_map.mpr ⟨entry, hmt, hkey⟩
        have hkh : x.1 ≠ id := fun he => hx (he ▸ hmemid)
        have hhe : (x == entry) = false := by
          apply beq_eq_false_iff_ne.mpr
          intro he
          exact hkh (he ▸ hkey)
        simp [List.filter_cons, hhe, hkh, ih hnd' hmt]

theorem filter_key_nil (l : List (String × Nat)) (id : String) :
    (l.filter (fun p => !(p.1 == id))).filter (fun p => p.1 == id) = [] := by
  rw [List.filter_filter]
  simp

theorem filter_key_of_ne_key (l : List (String × Nat)) (id id' : String) (h : id ≠ id') :
    (l.filter (fun p => !(p.1 == id))).filter (fun p => p.1 == id')
      = l.filter (fun p => p.1 == id') := by
  rw [List.filter_filter]
  apply List.filter_congr
  intro p hp
  by_cases hp1 : p.1 = id'
  · have hne : (p.1 == id) = false := by
      apply beq_eq_false_iff_ne.mpr
      rw [hp1]
      exact fun he => h he.symm
    simp [hp1, hne, Ne.symm h]
  · simp [beq_eq_false_iff_ne.mpr hp1]

theorem filter_key_idem (l : List (String × Nat)) (id : String) :
    (l.filter (fun p => !(p.1 == id))).filter (fun p => !(p.1 == id))
      = l.filter (fun p => !(p.1 == id)) := by
  rw [List.filter_filter]
  apply List.filter_congr
  intro p hp
  simp

theorem key_not_mem_filter (l : List (String × Nat)) (id : String) :
    id ∉ (l.filter (fun p => !(p.1 == id))).map Prod.fst := by
  intro hmem
  obtain ⟨p, hp, hfst⟩ := List.mem_map.mp hmem
  have := List.of_mem_filter hp
  simp [hfst] at this

theorem nodup_filter_keys (l : List (String × Nat)) (hnd : (l.map Prod.fst).Nodup)
    (q : String × Nat → Bool) : ((l.filter q).map Prod.fst).Nodup := by
  induction l with
  | nil => simp
  | cons h t ih =>
      simp only [List.map_cons, List.nodup_cons] at hnd
      obtain ⟨hh, hnd'⟩ := hnd
      by_cases hq : q h
      · simp only [List.filter_cons, hq, if_true, List.map_cons, List.nodup_cons]
        refine ⟨fun hmem => ?_, ih hnd'⟩
        obtain ⟨p, hp, hfst⟩ := List.mem_map.mp hmem
        exact hh (List.mem_map.mpr ⟨p, List.mem_of_mem_filter hp, hfst⟩)
      · simp only [List.filter_cons, hq, if_false]
        exact ih hnd'

/-- Under well-formedness, `Scheduler::remove` normalises to filtering the
id's entry out of both the map and the task list. -/
theorem removeTimer_eq (st : SchedState) (id : String) (hwf : st.WF) :
    removeTimer st id =
      ⟨st.timers.filter (fun p => !(p.1 == id)),
       st.timers.filter (fun p => !(p.1 == id)), st.nextTok⟩ := by
  obtain ⟨tasks, timers, tok⟩ := st
  obtain ⟨hte, hnd⟩ := hwf
  simp only at hte hnd
  subst hte
  unfold removeTimer
  cases hf : tasks.find? (fun p => p.1 == id) with
  | none =>
      have hall := List.find?_eq_none.mp hf
      have hself : tasks.filter (fun p => !(p.1 == id)) = tasks := by
        apply List.filter_eq_self.mpr
        intro p hp
        simp [hall p hp]
      simp [hself]
  | some entry =>
      have hmem : entry ∈ tasks := List.mem_of_find?_eq_some hf
      have hkey : entry.1 = id := by simpa using List.find?_some hf
      simp only [SchedState.mk.injEq]
      rw [filter_ne_entry_of_nodup tasks id entry hnd hmem hkey]
      simp

theorem removeTimer_facts (st : SchedState) (id : String) (hwf : st.WF) :
    (removeTimer st id).WF ∧ liveTimersFor (removeTimer st id) id = 0 ∧
    (∀ id', id' ≠ id → liveTimersFor (removeTimer st id) id' = liveTimersFor st id') := by
  have hrm := removeTimer_eq st id hwf
  obtain ⟨hte, hnd⟩ := hwf
  refine ⟨?_, ?_, ?_⟩
  · rw [hrm]
    exact ⟨rfl, nodup_filter_keys st.timers hnd _⟩
  · rw [hrm]
    unfold liveTimersFor
    simp only
    rw [filter_key_nil]
    rfl
  · intro id' hne
    rw [hrm]
    unfold liveTimersFor
    simp only
    rw [filter_key_of_ne_key _ _ _ (Ne.symm hne), hte]

theorem spawn_after_remove_facts (st : SchedState) (id : String) (hwf : st.WF) :
    (spawnTimer (removeTimer st id) id).WF ∧
    liveTimersFor (spawnTimer (removeTimer st id) id) id = 1 ∧
    (∀ id', id' ≠ id →
      liveTimersFor (spawnTimer (removeTimer st id) id) id' = liveTimersFor st id') := by
  have hrm := removeTimer_eq st id hwf
  obtain ⟨hte, hnd⟩ := hwf
  have hspawn : spawnTimer (removeTimer st id) id =
      ⟨st.timers.filter (fun p => !(p.1 == id)) ++ [(id, st.nextTok)],
       st.timers.filter (fun p => !(p.1 == id)) ++ [(id, st.nextTok)],
       st.nextTok + 1⟩ := by
    rw [hrm]
    unfold spawnTimer
    simp only [filter_key_idem]
  refine ⟨?_, ?_, ?_⟩
  · rw [hspawn]
    refine ⟨rfl, ?_⟩
    simp only [List.map_append, List.map_cons, List.map_nil]
    apply List.Nodup.append (nodup_filter_keys st.timers hnd _) (List.nodup_singleton id)
    intro x hx1 hx2
    simp only [List.mem_singleton] at hx2
    subst hx2
    exact key_not_mem_filter st.timers x hx1
  · rw [hspawn]
    unfold liveTimersFor
    simp only [List.filter_append, filter_key_nil]
    simp
  · intro id' hne
    rw [hspawn]
    unfold liveTimersFor
    simp only [List.filter_append]
    rw [filter_key_of_ne_key _ _ _ (Ne.symm hne)]
    have hsing : [(id, st.nextTok)].filter (fun p => p.1 == id') = [] := by
      simp [beq_eq_false_iff_ne.mpr (Ne.symm hne)]
    simp [hsing, hte]

/-- **C7 (amended).** For a well-formed scheduler state: `register` (and
`update`, which is the same function) with a `Schedule` trigger first
aborts any existing timer for the automation's id, leaving exactly one live
timer when the automation is enabled and registration succeeds, and zero
when it is disabled or registration fails (invalid time or cron); timers of
other ids are untouched; `remove` leaves zero live timers for the id and
preserves well-formedness.  However, `register`/`update` with a
non-`Schedule` trigger return immediately and do NOT abort an existing
timer for that id (see the counterexample). -/
theorem scheduler_register_spec (cronOk : String → Bool) (st : SchedState)
    (a : Automation) (hwf : st.WF) :
    (Scheduler.register cronOk st a).1.WF ∧
    (∀ id', id' ≠ a.id →
      liveTimersFor (Scheduler.register cronOk st a).1 id' = liveTimersFor st id') ∧
    (∀ schedule, a.trigger = .Schedule schedule →
      (a.enabled = true → (Scheduler.register cronOk st a).2 = none →
        liveTimersFor (Scheduler.register cronOk st a).1 a.id = 1) ∧
      (a.enabled = false →
        liveTimersFor (Scheduler.register cronOk st a).1 a.id = 0) ∧
      ((Scheduler.register cronOk st a).2 ≠ none →
        liveTimersFor (Scheduler.register cronOk st a).1 a.id = 0)) ∧
    ((∀ schedule, a.trigger ≠ .Schedule schedule) →
      (Scheduler.register cronOk st a).1 = st) ∧
    Scheduler.update cronOk st a = Scheduler.register cronOk st a ∧
    ((removeTimer st a.id).WF ∧ liveTimersFor (removeTimer st a.id) a.id = 0 ∧
      (∀ id', id' ≠ a.id →
        liveTimersFor (removeTimer st a.id) id' = liveTimersFor st id')) := by
  have hrmf := removeTimer_facts st a.id hwf
  have hspf := spawn_after_remove_facts st a.id hwf
  cases htrig : a.trigger with
  | DeviceState ieee ep sc =>
      have hr : Scheduler.register cronOk st a = (st, none) := by
        simp [Scheduler.register, htrig]
      refine ⟨by rw [hr]; exact hwf, fun id' _ => by rw [hr], ?_, fun _ => by rw [hr],
        rfl, hrmf⟩
      intro s hs
      exact Trigger.noConfusion hs
  | Manual =>
      have hr : Scheduler.register cronOk st a = (st, none) := by
        simp [Scheduler.register, htrig]
      refine ⟨by rw [hr]; exact hwf, fun id' _ => by rw [hr], ?_, fun _ => by rw [hr],
        rfl, hrmf⟩
      intro s hs
      exact Trigger.noConfusion hs
  | Schedule schedule =>
      cases hen : a.enabled with
      | false =>
          have hr : Scheduler.register cronOk st a = (removeTimer st a.id, none) := by
            simp [Scheduler.register, htrig, hen]
          refine ⟨by rw [hr]; exact hrmf.1, fun id' h => by rw [hr]; exact hrmf.2.2 id' h,
            ?_, fun hnon => absurd rfl (hnon schedule), rfl, hrmf⟩
          intro s _
          exact ⟨fun he => absurd he (by simp),
            fun _ => by rw [hr]; exact hrmf.2.1,
            fun _ => by rw [hr]; exact hrmf.2.1⟩
      | true =>
          cases schedule with
          | Interval seconds =>
              have hr : Scheduler.register cronOk st a
                  = (spawnTimer (removeTimer st a.id) a.id, none) := by
                simp [Scheduler.register, htrig, hen]
              refine ⟨by rw [hr]; exact hspf.1,
                fun id' h => by rw [hr]; exact hspf.2.2 id' h,
                ?_, fun hnon => absurd rfl (hnon _), rfl, hrmf⟩
              intro s _
              exact ⟨fun _ _ => by rw [hr]; exact hspf.2.1,
                fun he => absurd he (by simp),
                fun herr => absurd (by rw [hr]) herr⟩
          | TimeOfDay time days =>
              cases hp : parseTimeHHMM time with
              | some v =>
                  have hr : Scheduler.register cronOk st a
                      = (spawnTimer (removeTimer st a.id) a.id, none) := by
                    simp [Scheduler.register, htrig, hen, hp]
                  refine ⟨by rw [hr]; exact hspf.1,
                    fun id' h => by rw [hr]; exact hspf.2.2 id' h,
                    ?_, fun hnon => absurd rfl (hnon _), rfl, hrmf⟩
                  intro s _
                  exact ⟨fun _ _ => by rw [hr]; exact hspf.2.1,
                    fun he => absurd he (by simp),
                    fun herr => absurd (by rw [hr]) herr⟩
              | none =>
                  have hr : Scheduler.register cronOk st a
                      = (removeTimer st a.id, some (.InvalidTimeFormat time)) := by
                    simp [Scheduler.register, htrig, hen, hp]
                  refine ⟨by rw [hr]; exact hrmf.1,
                    fun id' h => by rw [hr]; exact hrmf.2.2 id' h,
                    ?_, fun hnon => absurd rfl (hnon _), rfl, hrmf⟩
                  intro s _
                  refine ⟨fun _ herr => ?_, fun _ => by rw [hr]; exact hrmf.2.1,
                    fun _ => by rw [hr]; exact hrmf.2.1⟩
                  rw [hr] at herr
                  exact Option.noConfusion herr
          | Cron expression =>
              cases hcron : cronOk expression with
              | true =>
                  have hr : Scheduler.register cronOk st a
                      = (spawnTimer (removeTimer st a.id) a.id, none) := by
                    simp [Scheduler.register, htrig, hen, hcron]
                  refine ⟨by rw [hr]; exact hspf.1,
                    fun id' h => by rw [hr]; exact hspf.2.2 id' h,
                    ?_, fun hnon => absurd rfl (hnon _), rfl, hrmf⟩
                  intro s _
                  exact ⟨fun _ _ => by rw [hr]; exact hspf.2.1,
                    fun he => absurd he (by simp),
                    fun herr => absurd (by rw [hr]) herr⟩
              | false =>
                  have hr : Scheduler.register cronOk st a
                      = (removeTimer st a.id, some (.InvalidCron expression)) := by
                    simp [Scheduler.register, htrig, hen, hcron]
                  refine ⟨by rw [hr]; exact hrmf.1,
                    fun id' h => by rw [hr]; exact hrmf.2.2 id' h,
                    ?_, fun hnon => absurd rfl (hnon _), rfl, hrmf⟩
                  intro s _
                  refine ⟨fun _ herr => ?_, fun _ => by rw [hr]; exact hrmf.2.1,
                    fun _ => by rw [hr]; exact hrmf.2.1⟩
                  rw [hr] at herr
                  exact Option.noConfusion herr

/-- **C7 (counterexample).** After registering a Schedule automation (one
live timer), re-registering the same id with a non-Schedule trigger leaves
the state — including the stale live timer — completely untouched: the
operation does not "first abort any existing timer task", and one live
timer remains although the trigger is not a Schedule. -/
theorem scheduler_nonschedule_keeps_stale_timer :
    liveTimersFor (Scheduler.register (fun _ => true) SchedState.empty autoInterval).1
        "auto-1" = 1 ∧
    Scheduler.register (fun _ => true)
        (Scheduler.register (fun _ => true) SchedState.empty autoInterval).1
        autoManualSameId
      = ((Scheduler.register (fun _ => true) SchedState.empty autoInterval).1, none) ∧
    liveTimersFor
        (Scheduler.register (fun _ => true)
          (Scheduler.register (fun _ => true) SchedState.empty autoInterval).1
          autoManualSameId).1 "auto-1" = 1 := by
  refine ⟨?_, ?_, ?_⟩ <;> rfl

/-- Witness for `scheduler_register_spec`: registering the interval
automation on the fresh scheduler yields a well-formed state with exactly
one live timer, and registering it again still leaves exactly one. -/
theorem scheduler_register_spec_witness :
    (Scheduler.register (fun _ => true) SchedState.empty autoInterval).1.WF ∧
    liveTimersFor (Scheduler.register (fun _ => true) SchedState.empty autoInterval).1
        "auto-1" = 1 ∧
    liveTimersFor (Scheduler.register (fun _ => true)
        (Scheduler.register (fun _ => true) SchedState.empty autoInterval).1
        autoInterval).1 "auto-1" = 1 := by
  have h1 := scheduler_register_spec (fun _ => true) SchedState.empty autoInterval
    ⟨rfl, by simp [SchedState.empty]⟩
  have h2 := scheduler_register_spec (fun _ => true)
    (Scheduler.register (fun _ => true) SchedState.empty autoInterval).1 autoInterval h1.1
  exact ⟨h1.1, (h1.2.2.1 (.Interval 2) rfl).1 rfl rfl,
    (h2.2.2.1 (.Interval 2) rfl).1 rfl rfl⟩

end Casita
